import Mathlib

/-!
# Verification of the meal-plan optimization core

Shallow embedding of `planner/optimization_service.py`,
`planner/planner_service.py` and `planner/default_plans.py` of the
personalize-diet-planning repository, together with proofs about the
claims of the specification.

Modelling conventions:
* Recipe ids are `Int` (the static default plans use negative ids).
* Nutrient quantities are `ℚ` (the Python code uses floats; every
  arithmetic fact proved here only uses exact field arithmetic, no
  rounding behaviour).
* The external recipe repository (Django ORM) is a `List CatRecipe`
  parameter; `order_by('?')` randomized ordering is a `shuffle`
  function parameter; `random.sample` is a `sampleFn` parameter.
* The CBC MILP solver is an oracle parameter `solve`; its soundness
  (an `Optimal` answer satisfies the constraints the code built) is an
  explicit hypothesis of the theorems that need it.
-/

set_option linter.unusedVariables false

/-- A recipe row restricted to `OPTIMIZATION_FIELDS`
(`planner_service.py`, lines 16-19). -/
structure Recipe where
  id : Int
  name : String
  meal_type : String
  avg_calories : ℚ
  avg_protein_g : ℚ
  avg_fat_g : ℚ
  avg_carbs_g : ℚ
deriving DecidableEq

/-- Daily nutritional target (`daily_target_nutrients`). -/
structure Targets where
  calories : ℚ
  protein_g : ℚ
  fat_g : ℚ
  carbs_g : ℚ
deriving DecidableEq

/-- A recipe of the combined daily pool together with its assigned meal
(the `meal_assignment` dict of `create_daily_plan_global`). -/
structure AssignedRecipe where
  recipe : Recipe
  meal : String
deriving DecidableEq

/-- The three per-meal candidate pools handed to
`create_daily_plan_global` (`recipe_pools` argument). -/
structure MealPools where
  breakfast : List Recipe
  lunch : List Recipe
  dinner : List Recipe
deriving DecidableEq

/-- Ids of an assigned-recipe list, in order. -/
def idsOf (l : List AssignedRecipe) : List Int :=
  l.map (fun a => a.recipe.id)

/-- Lookup of the (unique) pool entry with a given id. -/
def findById (l : List AssignedRecipe) (i : Int) : Option AssignedRecipe :=
  l.find? (fun a => a.recipe.id == i)

/-- Whether an id is already present in the combined pool
(`recipe_id not in all_recipes_dict` test). -/
def containsId (l : List AssignedRecipe) (i : Int) : Bool :=
  l.any (fun a => a.recipe.id == i)

/-- One pass of the priority pool merge of `create_daily_plan_global`
(`optimization_service.py`, lines 535-542): recipes of one meal's pool
are appended unless the id was already used or already merged. -/
def mergeInto (meal : String) : List Recipe → List Int → List AssignedRecipe → List AssignedRecipe
  | [], _, acc => acc
  | r :: rs, used, acc =>
    if r.id ∈ used ∨ containsId acc r.id then mergeInto meal rs used acc
    else mergeInto meal rs used (acc ++ [⟨r, meal⟩])

/-- The combined deduplicated daily pool, processing the three pools in
the fixed priority order Breakfast > Lunch > Dinner
(`meal_priority` list, `optimization_service.py` line 533). -/
def mergePools (pools : MealPools) (used : List Int) : List AssignedRecipe :=
  mergeInto "Dinner" pools.dinner used
    (mergeInto "Lunch" pools.lunch used
      (mergeInto "Breakfast" pools.breakfast used []))

theorem containsId_append_iff (l l' : List AssignedRecipe) (i : Int) :
    containsId (l ++ l') i = (containsId l i || containsId l' i) := by
  simp [containsId, List.any_append]

theorem containsId_mono {acc : List AssignedRecipe} {i : Int} (meal : String)
    (rs : List Recipe) (used : List Int) (h : containsId acc i = true) :
    containsId (mergeInto meal rs used acc) i = true := by
  induction rs generalizing acc with
  | nil => simpa [mergeInto] using h
  | cons r rs ih =>
    simp only [mergeInto]
    split
    · exact ih h
    · exact ih (by simp [containsId_append_iff, h])

theorem mem_mergeInto {a : AssignedRecipe} {meal : String} {rs : List Recipe}
    {used : List Int} {acc : List AssignedRecipe}
    (h : a ∈ mergeInto meal rs used acc) :
    a ∈ acc ∨ (a.meal = meal ∧ a.recipe ∈ rs) := by
  induction rs generalizing acc with
  | nil =>
    simp only [mergeInto] at h
    exact Or.inl h
  | cons r rs ih =>
    simp only [mergeInto] at h
    split at h
    · rcases ih h with h' | h'
      · exact Or.inl h'
      · exact Or.inr ⟨h'.1, List.mem_cons_of_mem _ h'.2⟩
    · rcases ih h with h' | h'
      · rcases List.mem_append.mp h' with h'' | h''
        · exact Or.inl h''
        · simp only [List.mem_singleton] at h''
          subst h''
          exact Or.inr ⟨rfl, List.mem_cons_self _ _⟩
      · exact Or.inr ⟨h'.1, List.mem_cons_of_mem _ h'.2⟩

theorem containsId_iff_mem (l : List AssignedRecipe) (i : Int) :
    containsId l i = true ↔ i ∈ idsOf l := by
  simp only [containsId, List.any_eq_true, beq_iff_eq, idsOf, List.mem_map]

theorem containsId_eq_false_iff (l : List AssignedRecipe) (i : Int) :
    containsId l i = false ↔ i ∉ idsOf l := by
  constructor
  · intro h hm
    rw [← containsId_iff_mem] at hm
    rw [h] at hm
    cases hm
  · intro h
    cases hc : containsId l i
    · rfl
    · exact absurd ((containsId_iff_mem l i).mp hc) h

/-- Merging never introduces a duplicate id: the combined pool of
`create_daily_plan_global` has pairwise distinct recipe ids. -/
theorem idsOf_mergeInto_nodup {meal : String} {rs : List Recipe}
    {used : List Int} {acc : List AssignedRecipe}
    (h : (idsOf acc).Nodup) : (idsOf (mergeInto meal rs used acc)).Nodup := by
  induction rs generalizing acc with
  | nil => simpa [mergeInto] using h
  | cons r rs ih =>
    simp only [mergeInto]
    split
    · exact ih h
    · rename_i hcond
      push_neg at hcond
      apply ih
      have hni : r.id ∉ idsOf acc := (containsId_eq_false_iff acc r.id).mp
        (by simpa using hcond.2)
      simp [idsOf] at h hni ⊢
      exact List.Nodup.append h (List.nodup_singleton _)
        (by simpa [List.disjoint_singleton] using hni)

theorem idsOf_mergePools_nodup (pools : MealPools) (used : List Int) :
    (idsOf (mergePools pools used)).Nodup := by
  unfold mergePools
  exact idsOf_mergeInto_nodup (idsOf_mergeInto_nodup
    (idsOf_mergeInto_nodup (by simp [idsOf])))

theorem containsId_eq_isSome (l : List AssignedRecipe) (i : Int) :
    containsId l i = (findById l i).isSome := by
  induction l with
  | nil => rfl
  | cons a l ih =>
    simp only [containsId, findById, List.any_cons, List.find?_cons] at ih ⊢
    cases hp : (a.recipe.id == i) <;> simp [hp, ih]

theorem findById_append_left {l : List AssignedRecipe} (l' : List AssignedRecipe) {i : Int}
    (h : containsId l i = true) : findById (l ++ l') i = findById l i := by
  have h' := h
  rw [containsId_eq_isSome] at h'
  simp only [findById, List.find?_append] at h' ⊢
  rcases Option.isSome_iff_exists.mp h' with ⟨a, ha⟩
  rw [ha]
  rfl

theorem findById_eq_none_of_not_contains {l : List AssignedRecipe} {i : Int}
    (h : containsId l i = false) : findById l i = none := by
  rw [containsId_eq_isSome] at h
  exact Option.not_isSome_iff_eq_none.mp (by simp [h])

/-- Ids already merged are never reassigned: later (lower-priority) merge
passes leave the existing entry untouched. -/
theorem findById_mergeInto_of_contains {meal : String} {rs : List Recipe}
    {used : List Int} {acc : List AssignedRecipe} {i : Int}
    (h : containsId acc i = true) :
    findById (mergeInto meal rs used acc) i = findById acc i := by
  induction rs generalizing acc with
  | nil => simp [mergeInto]
  | cons r rs ih =>
    simp only [mergeInto]
    split
    · exact ih h
    · rw [ih (by simp [containsId_append_iff, h])]
      exact findById_append_left _ h

theorem containsId_mergeInto_iff {meal : String} {rs : List Recipe}
    {used : List Int} {acc : List AssignedRecipe} {i : Int}
    (h : containsId (mergeInto meal rs used acc) i = true) :
    containsId acc i = true ∨ i ∈ rs.map Recipe.id := by
  rw [containsId_iff_mem] at h
  rcases List.mem_map.mp h with ⟨a, hmem, hid⟩
  rcases mem_mergeInto hmem with h' | h'
  · exact Or.inl ((containsId_iff_mem _ _).mpr (List.mem_map.mpr ⟨a, h', hid⟩))
  · exact Or.inr (List.mem_map.mpr ⟨a.recipe, h'.2, hid⟩)

/-- A not-yet-used, not-yet-merged id present in a pool is merged with
that pool's meal: this is the Breakfast > Lunch > Dinner priority
assignment of `create_daily_plan_global`. -/
theorem findById_mergeInto_new {meal : String} {rs : List Recipe}
    {used : List Int} {acc : List AssignedRecipe} {i : Int}
    (hacc : containsId acc i = false) (hmem : i ∈ rs.map Recipe.id)
    (hused : i ∉ used) :
    ∃ a, findById (mergeInto meal rs used acc) i = some a ∧ a.meal = meal := by
  induction rs generalizing acc with
  | nil => simp at hmem
  | cons r rs ih =>
    simp only [mergeInto]
    by_cases hr : r.id = i
    · split
      · rename_i hcond
        rcases hcond with hu | hc
        · exact absurd (hr ▸ hu) hused
        · rw [hr] at hc
          rw [hc] at hacc
          cases hacc
      · have hcontains : containsId (acc ++ [⟨r, meal⟩]) i = true := by
          simp [containsId_append_iff, containsId, hr]
        rw [findById_mergeInto_of_contains hcontains]
        have hnone : findById acc i = none := findById_eq_none_of_not_contains hacc
        refine ⟨⟨r, meal⟩, ?_, rfl⟩
        simp only [findById] at hnone ⊢
        rw [List.find?_append, hnone]
        simp [hr]
    · have hmem' : i ∈ rs.map Recipe.id := by
        rcases List.mem_map.mp hmem with ⟨r', hr', hid⟩
        rcases List.mem_cons.mp hr' with h' | h'
        · exact absurd (h' ▸ hid) hr
        · exact List.mem_map.mpr ⟨r', h', hid⟩
      split
      · exact ih hacc hmem'
      · rename_i hcond
        push_neg at hcond
        apply ih _ hmem'
        rw [containsId_append_iff, hacc]
        simp [containsId, hr] 

/-- Stratification key of the pool-size reduction: (assigned meal,
meal-type tag) (`optimization_service.py`, lines 563-570). -/
def poolKey (a : AssignedRecipe) : String × String :=
  (a.meal, a.recipe.meal_type)

/-- First-occurrence-ordered distinct keys, mirroring Python dict key
insertion order. -/
def dedupKeys (ks : List (String × String)) : List (String × String) :=
  ks.foldl (fun acc k => if k ∈ acc then acc else acc ++ [k]) []

/-- Keep the first entry per id (`reduced_dict`,
`optimization_service.py` lines 583-589). -/
def dedupById : List AssignedRecipe → List AssignedRecipe → List AssignedRecipe
  | [], acc => acc
  | a :: rest, acc =>
    if containsId acc a.recipe.id then dedupById rest acc
    else dedupById rest (acc ++ [a])

/-- The stratified pool-size reduction applied when the combined pool
exceeds `MAX_COMBINED_POOL_SIZE = 600`
(`optimization_service.py`, lines 559-601): group by (assigned meal,
meal type), sample each over-full group down to `600 / #groups`
(`random.sample` abstracted by `sampleFn`), concatenate and
de-duplicate by id. -/
def reducePool (sampleFn : List AssignedRecipe → Nat → List AssignedRecipe)
    (pool : List AssignedRecipe) : List AssignedRecipe :=
  let keys := dedupKeys (pool.map poolKey)
  let target := 600 / max keys.length 1
  let reduced := (keys.map (fun k =>
    let group := pool.filter (fun a => poolKey a == k)
    if group.length > target then sampleFn group target else group)).flatten
  dedupById reduced []

theorem idsOf_dedupById_nodup {l acc : List AssignedRecipe}
    (h : (idsOf acc).Nodup) : (idsOf (dedupById l acc)).Nodup := by
  induction l generalizing acc with
  | nil => simpa [dedupById] using h
  | cons a l ih =>
    simp only [dedupById]
    split
    · exact ih h
    · rename_i hc
      apply ih
      have hni : a.recipe.id ∉ idsOf acc :=
        (containsId_eq_false_iff acc a.recipe.id).mp (by simpa using hc)
      simp only [idsOf, List.map_append, List.map_cons, List.map_nil]
      exact List.Nodup.append (by simpa [idsOf] using h) (List.nodup_singleton _)
        (by simpa [List.disjoint_singleton, idsOf] using hni)

/-- Downsampling preserves id-uniqueness of the pool, for any sampling
behaviour whatsoever. -/
theorem idsOf_reducePool_nodup
    (sampleFn : List AssignedRecipe → Nat → List AssignedRecipe)
    (pool : List AssignedRecipe) :
    (idsOf (reducePool sampleFn pool)).Nodup := by
  unfold reducePool
  exact idsOf_dedupById_nodup (by simp [idsOf])

theorem mem_dedupById {a : AssignedRecipe} {l acc : List AssignedRecipe}
    (h : a ∈ dedupById l acc) : a ∈ acc ∨ a ∈ l := by
  induction l generalizing acc with
  | nil =>
    simp only [dedupById] at h
    exact Or.inl h
  | cons b l ih =>
    simp only [dedupById] at h
    split at h
    · rcases ih h with h' | h'
      · exact Or.inl h'
      · exact Or.inr (List.mem_cons_of_mem _ h')
    · rcases ih h with h' | h'
      · rcases List.mem_append.mp h' with h'' | h''
        · exact Or.inl h''
        · simp only [List.mem_singleton] at h''
          exact Or.inr (h'' ▸ List.mem_cons_self _ _)
      · exact Or.inr (List.mem_cons_of_mem _ h')

/-- Whenever the sampler only returns elements of its input (as
`random.sample` does), the reduced pool is a sub-collection of the
combined pool. -/
theorem mem_reducePool {sampleFn : List AssignedRecipe → Nat → List AssignedRecipe}
    (hs : ∀ l n, ∀ x ∈ sampleFn l n, x ∈ l)
    {pool : List AssignedRecipe} {a : AssignedRecipe}
    (h : a ∈ reducePool sampleFn pool) : a ∈ pool := by
  unfold reducePool at h
  rcases mem_dedupById h with h' | h'
  · cases h'
  · rcases List.mem_flatten.mp h' with ⟨g, hg, hag⟩
    rcases List.mem_map.mp hg with ⟨k, hk, hgk⟩
    subst hgk
    dsimp only at hag
    split at hag
    · exact List.mem_filter.mp (hs _ _ _ hag) |>.1
    · exact (List.mem_filter.mp hag).1

/-- Recipes of the combined pool with a given meal-type tag and a given
assigned meal (the category index lists of `create_daily_plan_global`,
`optimization_service.py` lines 624-639). -/
def itemsOf (P : List AssignedRecipe) (tag meal : String) : List AssignedRecipe :=
  P.filter (fun a => a.recipe.meal_type == tag && a.meal == meal)

def breakfastItems (P : List AssignedRecipe) : List AssignedRecipe :=
  itemsOf P "Breakfast" "Breakfast"

def fruitItems (P : List AssignedRecipe) : List AssignedRecipe :=
  itemsOf P "Fruit" "Breakfast"

def drinkItems (P : List AssignedRecipe) : List AssignedRecipe :=
  itemsOf P "Drink" "Breakfast"

def lunchMainItems (P : List AssignedRecipe) : List AssignedRecipe :=
  itemsOf P "Main Course" "Lunch"

def lunchCompItems (P : List AssignedRecipe) : List AssignedRecipe :=
  P.filter (fun a =>
    (a.recipe.meal_type == "Side Dish" || a.recipe.meal_type == "Salad" ||
     a.recipe.meal_type == "Soup") && a.meal == "Lunch")

def dinnerMainItems (P : List AssignedRecipe) : List AssignedRecipe :=
  itemsOf P "Main Course" "Dinner"

def dinnerCompItems (P : List AssignedRecipe) : List AssignedRecipe :=
  P.filter (fun a =>
    (a.recipe.meal_type == "Side Dish" || a.recipe.meal_type == "Salad" ||
     a.recipe.meal_type == "Soup" || a.recipe.meal_type == "Dessert") && a.meal == "Dinner")

def dessertItems (P : List AssignedRecipe) : List AssignedRecipe :=
  itemsOf P "Dessert" "Dinner"

/-- Number of selected items among a category list, for a 0/1 solver
assignment `sel` of the per-recipe binary variables. -/
def nsel (sel : Int → Bool) (l : List AssignedRecipe) : Nat :=
  (l.filter (fun a => sel a.recipe.id)).length

/-- The recipes picked out of the pool by the binary assignment
(`selected_recipe_ids` / `all_selected`). -/
def selectedOf (P : List AssignedRecipe) (sel : Int → Bool) : List Recipe :=
  (P.filter (fun a => sel a.recipe.id)).map (fun a => a.recipe)

/-- Totals of the four optimized nutrients over a recipe list
(`actual_nutrients`). -/
def actualOf (rs : List Recipe) : Targets where
  calories := (rs.map (fun r => r.avg_calories)).sum
  protein_g := (rs.map (fun r => r.avg_protein_g)).sum
  fat_g := (rs.map (fun r => r.avg_fat_g)).sum
  carbs_g := (rs.map (fun r => r.avg_carbs_g)).sum

/-- The per-nutrient over/under deviation variables `PosDev`/`NegDev`
of the daily problem. -/
structure DevVars where
  posCal : ℚ
  negCal : ℚ
  posPro : ℚ
  negPro : ℚ
  posFat : ℚ
  negFat : ℚ
  posCarb : ℚ
  negCarb : ℚ
deriving DecidableEq

/-- Objective of the strict daily problem with the weights of
`optimization_service.py`, lines 666-677 (calories 1.0, protein 3.0,
fat 0.8, carbs 1.0). -/
def strictObjective (d : DevVars) : ℚ :=
  (d.posCal + d.negCal) * 1 + (d.posPro + d.negPro) * 3 +
    (d.posFat + d.negFat) * (4 / 5) + (d.posCarb + d.negCarb) * 1

/-- Objective of the rebuilt relaxed problem (lines 847-852 of
`optimization_service.py`), spelled out again because the code builds
it again. -/
def relaxedObjective (d : DevVars) : ℚ :=
  (d.posCal + d.negCal) * 1 + (d.posPro + d.negPro) * 3 +
    (d.posFat + d.negFat) * (4 / 5) + (d.posCarb + d.negCarb) * 1

/-- Structural constraints of the strict daily problem
(`optimization_service.py` lines 679-710): Breakfast exactly one
Breakfast item and exactly one Fruit-or-Drink; Lunch and Dinner exactly
one Main Course each plus, when complementary candidates exist, one or
two complementary dishes (with at most one Dessert at Dinner); six to
eight recipes in total. -/
def structuralOK (P : List AssignedRecipe) (sel : Int → Bool) : Prop :=
  nsel sel (breakfastItems P) = 1 ∧
  nsel sel (fruitItems P ++ drinkItems P) = 1 ∧
  nsel sel (lunchMainItems P) = 1 ∧
  (lunchCompItems P ≠ [] →
    1 ≤ nsel sel (lunchCompItems P) ∧ nsel sel (lunchCompItems P) ≤ 2) ∧
  nsel sel (dinnerMainItems P) = 1 ∧
  (dinnerCompItems P ≠ [] →
    1 ≤ nsel sel (dinnerCompItems P) ∧ nsel sel (dinnerCompItems P) ≤ 2 ∧
    (dessertItems P ≠ [] → nsel sel (dessertItems P) ≤ 1)) ∧
  6 ≤ nsel sel P ∧ nsel sel P ≤ 8

/-- Nutrient balance constraints (`optimization_service.py` lines
721-737) together with the non-negativity bounds of the deviation
variables. -/
def balanceOK (P : List AssignedRecipe) (sel : Int → Bool) (t : Targets)
    (d : DevVars) : Prop :=
  0 ≤ d.posCal ∧ 0 ≤ d.negCal ∧ 0 ≤ d.posPro ∧ 0 ≤ d.negPro ∧
  0 ≤ d.posFat ∧ 0 ≤ d.negFat ∧ 0 ≤ d.posCarb ∧ 0 ≤ d.negCarb ∧
  (actualOf (selectedOf P sel)).calories - t.calories = d.posCal - d.negCal ∧
  (actualOf (selectedOf P sel)).protein_g - t.protein_g = d.posPro - d.negPro ∧
  (actualOf (selectedOf P sel)).fat_g - t.fat_g = d.posFat - d.negFat ∧
  (actualOf (selectedOf P sel)).carbs_g - t.carbs_g = d.posCarb - d.negCarb

/-- The optional hard protein guard (`optimization_service.py` lines
739-745): both protein deviation variables are capped at
`target * pct / 100` when a cap is configured and the target positive. -/
def proteinCapOK (t : Targets) (cap : Option ℚ) (d : DevVars) : Prop :=
  match cap with
  | none => True
  | some pct =>
    t.protein_g > 0 →
      d.posPro ≤ t.protein_g * (pct / 100) ∧ d.negPro ≤ t.protein_g * (pct / 100)

/-- Full constraint set of the strict daily problem. A CBC status of
`Optimal` means the returned variable assignment satisfies this. -/
def satisfiesLP (P : List AssignedRecipe) (t : Targets) (cap : Option ℚ)
    (sel : Int → Bool) (d : DevVars) : Prop :=
  structuralOK P sel ∧ balanceOK P sel t d ∧ proteinCapOK t cap d

/-- Constraint set of the relaxed retry problem, transcribed separately
from its own code block (`optimization_service.py` lines 855-885):
the same structural and nutrient-balance constraints, and no protein
cap block at all. -/
def relaxedSatisfies (P : List AssignedRecipe) (t : Targets)
    (sel : Int → Bool) (d : DevVars) : Prop :=
  (nsel sel (breakfastItems P) = 1 ∧
   nsel sel (fruitItems P ++ drinkItems P) = 1 ∧
   nsel sel (lunchMainItems P) = 1 ∧
   (lunchCompItems P ≠ [] →
     1 ≤ nsel sel (lunchCompItems P) ∧ nsel sel (lunchCompItems P) ≤ 2) ∧
   nsel sel (dinnerMainItems P) = 1 ∧
   (dinnerCompItems P ≠ [] →
     1 ≤ nsel sel (dinnerCompItems P) ∧ nsel sel (dinnerCompItems P) ≤ 2 ∧
     (dessertItems P ≠ [] → nsel sel (dessertItems P) ≤ 1)) ∧
   6 ≤ nsel sel P ∧ nsel sel P ≤ 8) ∧
  (0 ≤ d.posCal ∧ 0 ≤ d.negCal ∧ 0 ≤ d.posPro ∧ 0 ≤ d.negPro ∧
   0 ≤ d.posFat ∧ 0 ≤ d.negFat ∧ 0 ≤ d.posCarb ∧ 0 ≤ d.negCarb ∧
   (actualOf (selectedOf P sel)).calories - t.calories = d.posCal - d.negCal ∧
   (actualOf (selectedOf P sel)).protein_g - t.protein_g = d.posPro - d.negPro ∧
   (actualOf (selectedOf P sel)).fat_g - t.fat_g = d.posFat - d.negFat ∧
   (actualOf (selectedOf P sel)).carbs_g - t.carbs_g = d.posCarb - d.negCarb)

/-- One reported per-nutrient deviation record. -/
structure DevEntry where
  target : ℚ
  actual : ℚ
  deviation_pct : ℚ
deriving DecidableEq

def devEntryOf (t a : ℚ) : DevEntry :=
  ⟨t, a, |a - t| / t * 100⟩

/-- The deviation report of a solved day
(`optimization_service.py` lines 816-826): one entry per nutrient with
a positive target, `deviation_pct = abs(actual - target)/target*100`. -/
def mkDeviations (t act : Targets) : List (String × DevEntry) :=
  (if t.calories > 0 then [("calories", devEntryOf t.calories act.calories)] else []) ++
  (if t.protein_g > 0 then [("protein_g", devEntryOf t.protein_g act.protein_g)] else []) ++
  (if t.fat_g > 0 then [("fat_g", devEntryOf t.fat_g act.fat_g)] else []) ++
  (if t.carbs_g > 0 then [("carbs_g", devEntryOf t.carbs_g act.carbs_g)] else [])

/-- Output of a successful `create_daily_plan_global` call. -/
structure DayResult where
  breakfast : List Recipe
  lunch : List Recipe
  dinner : List Recipe
  status : String
  deviations : List (String × DevEntry)
  actual_nutrients : Targets
deriving DecidableEq

/-- Solution extraction shared by the strict and relaxed success paths
(`optimization_service.py` lines 792-831 and 899-934): group selected
recipes by assigned meal and put the Breakfast-tagged items of the
Breakfast list before its Fruit/Drink items. -/
def buildResult (P : List AssignedRecipe) (sel : Int → Bool) (t : Targets)
    (status : String) : DayResult :=
  let selected := P.filter (fun a => sel a.recipe.id)
  let bfastAll := (selected.filter (fun a => a.meal == "Breakfast")).map (fun a => a.recipe)
  let bfast :=
    bfastAll.filter (fun r => r.meal_type == "Breakfast") ++
    bfastAll.filter (fun r => r.meal_type == "Fruit" || r.meal_type == "Drink")
  let lunchSel := (selected.filter (fun a => a.meal == "Lunch")).map (fun a => a.recipe)
  let dinnerSel := (selected.filter (fun a => a.meal == "Dinner")).map (fun a => a.recipe)
  let act := actualOf (selected.map (fun a => a.recipe))
  ⟨bfast, lunchSel, dinnerSel, status, mkDeviations t act, act⟩

/-- Strict-path extraction (`optimization_service.py` lines 777-791):
duplicate selected ids or an empty selection abort the day. -/
def extractPlan (P : List AssignedRecipe) (sel : Int → Bool) (t : Targets) :
    Option DayResult :=
  if ((P.filter (fun a => sel a.recipe.id)).map (fun a => a.recipe.id)).Nodup then
    if (P.filter (fun a => sel a.recipe.id)).map (fun a => a.recipe.id) = [] then none
    else some (buildResult P sel t "Optimal")
  else none

/-- Relaxed-path extraction (`optimization_service.py` lines 896-943):
only the duplicate check is repeated; status `Optimal_Relaxed`. -/
def extractRelaxedPlan (P : List AssignedRecipe) (sel : Int → Bool) (t : Targets) :
    Option DayResult :=
  if ((P.filter (fun a => sel a.recipe.id)).map (fun a => a.recipe.id)).Nodup then
    some (buildResult P sel t "Optimal_Relaxed")
  else none

/-- Abstracted CBC answer: `optimal` carries the variable assignment,
`infeasible` is CBC's `Infeasible` status, `other` stands for every
remaining outcome (timeout, exception, `Not Solved`, ...). -/
inductive SolveOutcome where
  | optimal (sel : Int → Bool) (devs : DevVars)
  | infeasible
  | other

/-- `create_daily_plan_global` (`optimization_service.py`, lines
502-975).  The solver is the oracle `solve n cap`, where `n` is the
invocation index within this call (0 = strict problem, 1 = the single
relaxed retry) and `cap` the protein-cap configuration of that
problem; the code consults it at most twice.  The three `recipe_pools`
are always passed with the three meal keys present, hence the
`all(meal in recipe_pools)` guard of line 522 cannot fire and is not
modelled. -/
def create_daily_plan_global (pools : MealPools) (t : Targets) (used : List Int)
    (cap : Option ℚ) (sampleFn : List AssignedRecipe → Nat → List AssignedRecipe)
    (solve : Nat → Option ℚ → SolveOutcome) : Option DayResult :=
  let merged := mergePools pools used
  if (idsOf merged).Nodup then
    match (if merged.length > 600 then
            let red := reducePool sampleFn merged
            if (idsOf red).Nodup then some red else none
          else some merged) with
    | none => none
    | some P =>
      if P.length < 6 then none
      else if breakfastItems P = [] then none
      else if fruitItems P = [] ∧ drinkItems P = [] then none
      else if lunchMainItems P = [] then none
      else if dinnerMainItems P = [] then none
      else
        match solve 0 cap with
        | .optimal sel _ => extractPlan P sel t
        | .infeasible =>
          match solve 1 none with
          | .optimal sel _ => extractRelaxedPlan P sel t
          | _ => none
        | .other => none
  else none

/-- The pool actually handed to the solver: the merged pool, downsampled
when it exceeds 600 entries. -/
def effectivePool (pools : MealPools) (used : List Int)
    (sampleFn : List AssignedRecipe → Nat → List AssignedRecipe) : List AssignedRecipe :=
  let merged := mergePools pools used
  if merged.length > 600 then reducePool sampleFn merged else merged

/-- The two defensive duplicate-id checks of `create_daily_plan_global`
can never fire (the merge and the reduction both deduplicate), so the
function is the straight pipeline over the effective pool. -/
theorem create_daily_plan_global_eq (pools : MealPools) (t : Targets)
    (used : List Int) (cap : Option ℚ)
    (sampleFn : List AssignedRecipe → Nat → List AssignedRecipe)
    (solve : Nat → Option ℚ → SolveOutcome) :
    create_daily_plan_global pools t used cap sampleFn solve =
      (let P := effectivePool pools used sampleFn
       if P.length < 6 then none
       else if breakfastItems P = [] then none
       else if fruitItems P = [] ∧ drinkItems P = [] then none
       else if lunchMainItems P = [] then none
       else if dinnerMainItems P = [] then none
       else
         match solve 0 cap with
         | .optimal sel _ => extractPlan P sel t
         | .infeasible =>
           match solve 1 none with
           | .optimal sel _ => extractRelaxedPlan P sel t
           | _ => none
         | .other => none) := by
  unfold create_daily_plan_global effectivePool
  rw [if_pos (idsOf_mergePools_nodup pools used)]
  by_cases h6 : (mergePools pools used).length > 600
  · simp only [h6, if_true, if_pos (idsOf_reducePool_nodup _ _)]
  · simp only [h6, if_false]

/-- Every entry of the merged pool carries the meal of the pool it came
from. -/
theorem mem_mergePools {a : AssignedRecipe} {pools : MealPools} {used : List Int}
    (h : a ∈ mergePools pools used) :
    (a.meal = "Breakfast" ∧ a.recipe ∈ pools.breakfast) ∨
    (a.meal = "Lunch" ∧ a.recipe ∈ pools.lunch) ∨
    (a.meal = "Dinner" ∧ a.recipe ∈ pools.dinner) := by
  unfold mergePools at h
  rcases mem_mergeInto h with h1 | h1
  · rcases mem_mergeInto h1 with h2 | h2
    · rcases mem_mergeInto h2 with h3 | h3
      · cases h3
      · exact Or.inl ⟨h3.1, h3.2⟩
    · exact Or.inr (Or.inl ⟨h2.1, h2.2⟩)
  · exact Or.inr (Or.inr ⟨h1.1, h1.2⟩)

/-- Membership in the effective (possibly downsampled) pool, assuming a
sampler that picks from its input list. -/
theorem mem_effectivePool {a : AssignedRecipe} {pools : MealPools} {used : List Int}
    {sampleFn : List AssignedRecipe → Nat → List AssignedRecipe}
    (hs : ∀ l n, ∀ x ∈ sampleFn l n, x ∈ l)
    (h : a ∈ effectivePool pools used sampleFn) : a ∈ mergePools pools used := by
  unfold effectivePool at h
  simp only at h
  split at h
  · exact mem_reducePool hs h
  · exact h

theorem countP_split {α : Type} (l : List α) (p q : α → Bool) :
    l.countP p = l.countP (fun a => p a && q a) + l.countP (fun a => p a && !q a) := by
  induction l with
  | nil => rfl
  | cons a l ih =>
    by_cases hp : p a = true
    · cases hq : q a <;>
        simp [List.countP_cons, hp, hq, ih] <;> omega
    · have hp' : p a = false := by simpa using hp
      simp [List.countP_cons, hp', ih]

/-- Number of recipes of a list with a given meal-type tag. -/
def countTag (s : String) (rs : List Recipe) : Nat :=
  rs.countP (fun r => r.meal_type == s)

/-- Number of Fruit- or Drink-tagged recipes. -/
def countFruitDrink (rs : List Recipe) : Nat :=
  rs.countP (fun r => r.meal_type == "Fruit" || r.meal_type == "Drink")

/-- Number of Lunch-complementary (Side Dish / Salad / Soup) recipes. -/
def countLunchComp (rs : List Recipe) : Nat :=
  rs.countP (fun r =>
    r.meal_type == "Side Dish" || r.meal_type == "Salad" || r.meal_type == "Soup")

/-- Number of Dinner-complementary (Side Dish / Salad / Soup / Dessert)
recipes. -/
def countDinnerComp (rs : List Recipe) : Nat :=
  rs.countP (fun r =>
    r.meal_type == "Side Dish" || r.meal_type == "Salad" ||
    r.meal_type == "Soup" || r.meal_type == "Dessert")

theorem countP_mealList (P : List AssignedRecipe) (sel : Int → Bool) (m : String)
    (p : Recipe → Bool) :
    (((P.filter (fun a => sel a.recipe.id)).filter (fun a => a.meal == m)).map
        (fun a => a.recipe)).countP p
      = P.countP (fun a => (p a.recipe && (a.meal == m)) && sel a.recipe.id) := by
  rw [List.countP_map, List.countP_filter, List.countP_filter]
  simp [Function.comp]

theorem length_mealList (P : List AssignedRecipe) (sel : Int → Bool) (m : String) :
    (((P.filter (fun a => sel a.recipe.id)).filter (fun a => a.meal == m)).map
        (fun a => a.recipe)).length
      = P.countP (fun a => (a.meal == m) && sel a.recipe.id) := by
  rw [List.length_map, ← List.countP_eq_length_filter, List.countP_filter]

theorem nsel_filter (P : List AssignedRecipe) (sel : Int → Bool)
    (q : AssignedRecipe → Bool) :
    nsel sel (P.filter q) = P.countP (fun a => sel a.recipe.id && q a) := by
  rw [nsel, ← List.countP_eq_length_filter, List.countP_filter]

theorem nsel_eq_countP (P : List AssignedRecipe) (sel : Int → Bool) :
    nsel sel P = P.countP (fun a => sel a.recipe.id) := by
  rw [nsel, ← List.countP_eq_length_filter]

theorem mem_mealList {x : Recipe} {P : List AssignedRecipe} {sel : Int → Bool}
    {m : String}
    (h : x ∈ ((P.filter (fun a => sel a.recipe.id)).filter (fun a => a.meal == m)).map
        (fun a => a.recipe)) :
    ∃ a, a ∈ P ∧ a.recipe = x ∧ a.meal = m ∧ sel a.recipe.id = true := by
  rcases List.mem_map.mp h with ⟨a, ha, hax⟩
  rcases List.mem_filter.mp ha with ⟨ha', hm⟩
  rcases List.mem_filter.mp ha' with ⟨haP, hsel⟩
  exact ⟨a, haP, hax, by simpa using hm, hsel⟩

/-- Counting facts about the Breakfast reorder
(`breakfast_main + breakfast_complementary`): the reorder preserves the
number of Breakfast-tagged and of Fruit/Drink-tagged items, and keeps
exactly those. -/
theorem reorder_counts (L : List Recipe) :
    countTag "Breakfast"
        (L.filter (fun r => r.meal_type == "Breakfast") ++
          L.filter (fun r => r.meal_type == "Fruit" || r.meal_type == "Drink"))
      = countTag "Breakfast" L ∧
    countFruitDrink
        (L.filter (fun r => r.meal_type == "Breakfast") ++
          L.filter (fun r => r.meal_type == "Fruit" || r.meal_type == "Drink"))
      = countFruitDrink L ∧
    (L.filter (fun r => r.meal_type == "Breakfast") ++
      L.filter (fun r => r.meal_type == "Fruit" || r.meal_type == "Drink")).length
      = countTag "Breakfast" L + countFruitDrink L := by
  have c1 : List.countP (fun r : Recipe =>
      (r.meal_type == "Breakfast") && (r.meal_type == "Breakfast")) L
      = List.countP (fun r : Recipe => r.meal_type == "Breakfast") L := by
    apply List.countP_congr
    intro r _
    simp
  have c2 : List.countP (fun r : Recipe =>
      (r.meal_type == "Breakfast") && (r.meal_type == "Fruit" || r.meal_type == "Drink")) L
      = 0 := by
    apply List.countP_eq_zero.mpr
    intro r _
    simp only [Bool.and_eq_true, Bool.or_eq_true, beq_iff_eq, not_and]
    intro h1
    rw [h1]
    simp
  have c3 : List.countP (fun r : Recipe =>
      (r.meal_type == "Fruit" || r.meal_type == "Drink") && (r.meal_type == "Breakfast")) L
      = 0 := by
    apply List.countP_eq_zero.mpr
    intro r _
    simp only [Bool.and_eq_true, Bool.or_eq_true, beq_iff_eq, not_and]
    rintro (h1 | h1) <;> rw [h1] <;> simp
  have c4 : List.countP (fun r : Recipe =>
      (r.meal_type == "Fruit" || r.meal_type == "Drink") &&
        (r.meal_type == "Fruit" || r.meal_type == "Drink")) L
      = List.countP (fun r : Recipe => r.meal_type == "Fruit" || r.meal_type == "Drink") L := by
    apply List.countP_congr
    intro r _
    simp
  refine ⟨?_, ?_, ?_⟩
  · simp only [countTag, List.countP_append, List.countP_filter, c1, c2]
    omega
  · simp only [countFruitDrink, List.countP_append, List.countP_filter, c3, c4]
    omega
  · simp only [List.length_append, ← List.countP_eq_length_filter, countTag, countFruitDrink]

/-- The selected recipes of one meal, as the extraction groups them. -/
def mealListOf (P : List AssignedRecipe) (sel : Int → Bool) (m : String) : List Recipe :=
  ((P.filter (fun a => sel a.recipe.id)).filter (fun a => a.meal == m)).map
    (fun a => a.recipe)

theorem buildResult_breakfast_eq (P : List AssignedRecipe) (sel : Int → Bool)
    (t : Targets) (s : String) :
    (buildResult P sel t s).breakfast =
      (mealListOf P sel "Breakfast").filter (fun r => r.meal_type == "Breakfast") ++
      (mealListOf P sel "Breakfast").filter
        (fun r => r.meal_type == "Fruit" || r.meal_type == "Drink") := rfl

theorem buildResult_lunch_eq (P : List AssignedRecipe) (sel : Int → Bool)
    (t : Targets) (s : String) :
    (buildResult P sel t s).lunch = mealListOf P sel "Lunch" := rfl

theorem buildResult_dinner_eq (P : List AssignedRecipe) (sel : Int → Bool)
    (t : Targets) (s : String) :
    (buildResult P sel t s).dinner = mealListOf P sel "Dinner" := rfl

theorem countTag_breakfast_list (P : List AssignedRecipe) (sel : Int → Bool)
    (h1 : nsel sel (breakfastItems P) = 1) :
    countTag "Breakfast" (mealListOf P sel "Breakfast") = 1 := by
  rw [countTag, mealListOf, countP_mealList, ← h1, breakfastItems, itemsOf, nsel_filter]
  apply List.countP_congr
  intro a ha
  simp only [Bool.and_eq_true]
  tauto

theorem countFruitDrink_breakfast_list (P : List AssignedRecipe) (sel : Int → Bool)
    (h2 : nsel sel (fruitItems P ++ drinkItems P) = 1) :
    countFruitDrink (mealListOf P sel "Breakfast") = 1 := by
  rw [countFruitDrink, mealListOf, countP_mealList, ← h2]
  have happ : nsel sel (fruitItems P ++ drinkItems P)
      = nsel sel (fruitItems P) + nsel sel (drinkItems P) := by
    simp [nsel, List.filter_append]
  rw [happ, fruitItems, drinkItems, itemsOf, itemsOf, nsel_filter, nsel_filter]
  rw [countP_split P
    (fun a => ((a.recipe.meal_type == "Fruit" || a.recipe.meal_type == "Drink") &&
      (a.meal == "Breakfast")) && sel a.recipe.id)
    (fun a => a.recipe.meal_type == "Fruit")]
  congr 1
  · apply List.countP_congr
    intro a ha
    simp only [Bool.and_eq_true, Bool.or_eq_true, beq_iff_eq]
    tauto
  · apply List.countP_congr
    intro a ha
    simp only [Bool.and_eq_true, Bool.or_eq_true, beq_iff_eq, Bool.not_eq_true',
      beq_eq_false_iff_ne, ne_eq]
    constructor
    · rintro ⟨⟨⟨hfd, hb⟩, hs⟩, hnf⟩
      rcases hfd with hf | hd
      · exact absurd hf hnf
      · exact ⟨hs, hd, hb⟩
    · rintro ⟨hs, hd, hb⟩
      have hnf : ¬ a.recipe.meal_type = "Fruit" := by
        rw [hd]
        decide
      exact ⟨⟨⟨Or.inr hd, hb⟩, hs⟩, hnf⟩

theorem countTag_main_list (P : List AssignedRecipe) (sel : Int → Bool) (m : String)
    (h : nsel sel (itemsOf P "Main Course" m) = 1) :
    countTag "Main Course" (mealListOf P sel m) = 1 := by
  rw [countTag, mealListOf, countP_mealList, ← h, itemsOf, nsel_filter]
  apply List.countP_congr
  intro a ha
  simp only [Bool.and_eq_true]
  tauto

theorem countLunchComp_list (P : List AssignedRecipe) (sel : Int → Bool) :
    countLunchComp (mealListOf P sel "Lunch") = nsel sel (lunchCompItems P) := by
  rw [countLunchComp, mealListOf, countP_mealList, lunchCompItems, nsel_filter]
  apply List.countP_congr
  intro a ha
  simp only [Bool.and_eq_true, Bool.or_eq_true]
  tauto

theorem countDinnerComp_list (P : List AssignedRecipe) (sel : Int → Bool) :
    countDinnerComp (mealListOf P sel "Dinner") = nsel sel (dinnerCompItems P) := by
  rw [countDinnerComp, mealListOf, countP_mealList, dinnerCompItems, nsel_filter]
  apply List.countP_congr
  intro a ha
  simp only [Bool.and_eq_true, Bool.or_eq_true]
  tauto

theorem countTag_dessert_list (P : List AssignedRecipe) (sel : Int → Bool) :
    countTag "Dessert" (mealListOf P sel "Dinner") = nsel sel (dessertItems P) := by
  rw [countTag, mealListOf, countP_mealList, dessertItems, itemsOf, nsel_filter]
  apply List.countP_congr
  intro a ha
  simp only [Bool.and_eq_true]
  tauto

theorem length_lunch_list (P : List AssignedRecipe) (sel : Int → Bool)
    (hWF : ∀ a ∈ P, a.meal = "Lunch" →
      a.recipe.meal_type = "Main Course" ∨ a.recipe.meal_type = "Side Dish" ∨
      a.recipe.meal_type = "Salad" ∨ a.recipe.meal_type = "Soup") :
    (mealListOf P sel "Lunch").length
      = countTag "Main Course" (mealListOf P sel "Lunch") +
        countLunchComp (mealListOf P sel "Lunch") := by
  have hlen : (mealListOf P sel "Lunch").length
      = (mealListOf P sel "Lunch").countP (fun r => true) := by
    rw [List.countP_true]
  have e1 : (mealListOf P sel "Lunch").countP
        (fun r => true && (r.meal_type == "Main Course"))
      = countTag "Main Course" (mealListOf P sel "Lunch") := by
    unfold countTag
    apply List.countP_congr
    intro r hr
    simp
  have e2 : (mealListOf P sel "Lunch").countP
        (fun r => true && !(r.meal_type == "Main Course"))
      = countLunchComp (mealListOf P sel "Lunch") := by
    unfold countLunchComp
    apply List.countP_congr
    intro r hr
    rcases mem_mealList hr with ⟨a, haP, hax, hm, hs⟩
    have htypes := hWF a haP hm
    rw [hax] at htypes
    simp only [Bool.true_and, Bool.not_eq_true', beq_eq_false_iff_ne, ne_eq,
      Bool.and_eq_true, Bool.or_eq_true, beq_iff_eq]
    constructor
    · intro hnmc
      rcases htypes with h' | h' | h' | h'
      · exact absurd h' hnmc
      · exact Or.inl (Or.inl h')
      · exact Or.inl (Or.inr h')
      · exact Or.inr h'
    · rintro ((h' | h') | h') <;> rw [h'] <;> decide
  rw [hlen, countP_split (mealListOf P sel "Lunch") (fun r => true)
    (fun r => r.meal_type == "Main Course"), e1, e2]

theorem length_dinner_list (P : List AssignedRecipe) (sel : Int → Bool)
    (hWF : ∀ a ∈ P, a.meal = "Dinner" →
      a.recipe.meal_type = "Main Course" ∨ a.recipe.meal_type = "Side Dish" ∨
      a.recipe.meal_type = "Salad" ∨ a.recipe.meal_type = "Soup" ∨
      a.recipe.meal_type = "Dessert") :
    (mealListOf P sel "Dinner").length
      = countTag "Main Course" (mealListOf P sel "Dinner") +
        countDinnerComp (mealListOf P sel "Dinner") := by
  have hlen : (mealListOf P sel "Dinner").length
      = (mealListOf P sel "Dinner").countP (fun r => true) := by
    rw [List.countP_true]
  have e1 : (mealListOf P sel "Dinner").countP
        (fun r => true && (r.meal_type == "Main Course"))
      = countTag "Main Course" (mealListOf P sel "Dinner") := by
    unfold countTag
    apply List.countP_congr
    intro r hr
    simp
  have e2 : (mealListOf P sel "Dinner").countP
        (fun r => true && !(r.meal_type == "Main Course"))
      = countDinnerComp (mealListOf P sel "Dinner") := by
    unfold countDinnerComp
    apply List.countP_congr
    intro r hr
    rcases mem_mealList hr with ⟨a, haP, hax, hm, hs⟩
    have htypes := hWF a haP hm
    rw [hax] at htypes
    simp only [Bool.true_and, Bool.not_eq_true', beq_eq_false_iff_ne, ne_eq,
      Bool.and_eq_true, Bool.or_eq_true, beq_iff_eq]
    constructor
    · intro hnmc
      rcases htypes with h' | h' | h' | h' | h'
      · exact absurd h' hnmc
      · exact Or.inl (Or.inl (Or.inl h'))
      · exact Or.inl (Or.inl (Or.inr h'))
      · exact Or.inl (Or.inr h')
      · exact Or.inr h'
    · rintro (((h' | h') | h') | h') <;> rw [h'] <;> decide
  rw [hlen, countP_split (mealListOf P sel "Dinner") (fun r => true)
    (fun r => r.meal_type == "Main Course"), e1, e2]

theorem length_breakfast_list (P : List AssignedRecipe) (sel : Int → Bool)
    (hWF : ∀ a ∈ P, a.meal = "Breakfast" →
      a.recipe.meal_type = "Breakfast" ∨ a.recipe.meal_type = "Fruit" ∨
      a.recipe.meal_type = "Drink") :
    (mealListOf P sel "Breakfast").length
      = countTag "Breakfast" (mealListOf P sel "Breakfast") +
        countFruitDrink (mealListOf P sel "Breakfast") := by
  have hlen : (mealListOf P sel "Breakfast").length
      = (mealListOf P sel "Breakfast").countP (fun r => true) := by
    rw [List.countP_true]
  have e1 : (mealListOf P sel "Breakfast").countP
        (fun r => true && (r.meal_type == "Breakfast"))
      = countTag "Breakfast" (mealListOf P sel "Breakfast") := by
    unfold countTag
    apply List.countP_congr
    intro r hr
    simp
  have e2 : (mealListOf P sel "Breakfast").countP
        (fun r => true && !(r.meal_type == "Breakfast"))
      = countFruitDrink (mealListOf P sel "Breakfast") := by
    unfold countFruitDrink
    apply List.countP_congr
    intro r hr
    rcases mem_mealList hr with ⟨a, haP, hax, hm, hs⟩
    have htypes := hWF a haP hm
    rw [hax] at htypes
    simp only [Bool.true_and, Bool.not_eq_true', beq_eq_false_iff_ne, ne_eq,
      Bool.and_eq_true, Bool.or_eq_true, beq_iff_eq]
    constructor
    · intro hnb
      rcases htypes with h' | h' | h'
      · exact absurd h' hnb
      · exact Or.inl h'
      · exact Or.inr h'
    · rintro (h' | h') <;> rw [h'] <;> decide
  rw [hlen, countP_split (mealListOf P sel "Breakfast") (fun r => true)
    (fun r => r.meal_type == "Breakfast"), e1, e2]

theorem total_split (P : List AssignedRecipe) (sel : Int → Bool)
    (hM : ∀ a ∈ P, a.meal = "Breakfast" ∨ a.meal = "Lunch" ∨ a.meal = "Dinner") :
    nsel sel P = (mealListOf P sel "Breakfast").length +
      (mealListOf P sel "Lunch").length + (mealListOf P sel "Dinner").length := by
  rw [mealListOf, mealListOf, mealListOf, length_mealList, length_mealList, length_mealList,
    nsel_eq_countP]
  rw [countP_split P (fun a => sel a.recipe.id) (fun a => a.meal == "Breakfast")]
  rw [countP_split P (fun a => sel a.recipe.id && !(a.meal == "Breakfast"))
    (fun a => a.meal == "Lunch")]
  have e1 : P.countP (fun a => sel a.recipe.id && (a.meal == "Breakfast"))
      = P.countP (fun a => (a.meal == "Breakfast") && sel a.recipe.id) := by
    apply List.countP_congr
    intro a ha
    simp only [Bool.and_eq_true]
    tauto
  have e2 : P.countP (fun a => sel a.recipe.id && !(a.meal == "Breakfast") && (a.meal == "Lunch"))
      = P.countP (fun a => (a.meal == "Lunch") && sel a.recipe.id) := by
    apply List.countP_congr
    intro a ha
    simp only [Bool.and_eq_true, Bool.not_eq_true', beq_eq_false_iff_ne, ne_eq, beq_iff_eq]
    constructor
    · rintro ⟨⟨hs, hnb⟩, hl⟩
      exact ⟨hl, hs⟩
    · rintro ⟨hl, hs⟩
      refine ⟨⟨hs, ?_⟩, hl⟩
      rw [hl]
      decide
  have e3 : P.countP (fun a => sel a.recipe.id && !(a.meal == "Breakfast") && !(a.meal == "Lunch"))
      = P.countP (fun a => (a.meal == "Dinner") && sel a.recipe.id) := by
    apply List.countP_congr
    intro a ha
    simp only [Bool.and_eq_true, Bool.not_eq_true', beq_eq_false_iff_ne, ne_eq, beq_iff_eq]
    constructor
    · rintro ⟨⟨hs, hnb⟩, hnl⟩
      rcases hM a ha with h' | h' | h'
      · exact absurd h' hnb
      · exact absurd h' hnl
      · exact ⟨h', hs⟩
    · rintro ⟨hd, hs⟩
      refine ⟨⟨hs, ?_⟩, ?_⟩ <;> rw [hd] <;> decide
  rw [e1, e2, e3]
  omega

theorem nsel_nil (sel : Int → Bool) : nsel sel [] = 0 := rfl

theorem dessertItems_subset_dinnerComp {P : List AssignedRecipe} {a : AssignedRecipe}
    (h : a ∈ dessertItems P) : a ∈ dinnerCompItems P := by
  rw [dessertItems, itemsOf] at h
  rcases List.mem_filter.mp h with ⟨haP, hcond⟩
  simp only [Bool.and_eq_true, beq_iff_eq] at hcond
  apply List.mem_filter.mpr
  refine ⟨haP, ?_⟩
  simp [hcond.1, hcond.2]

/-- Everything the structural constraints force on an extracted day,
given pools whose entries carry only the meal-appropriate tags. -/
theorem buildResult_structural (P : List AssignedRecipe) (sel : Int → Bool)
    (t : Targets) (s : String)
    (hWFB : ∀ a ∈ P, a.meal = "Breakfast" →
      a.recipe.meal_type = "Breakfast" ∨ a.recipe.meal_type = "Fruit" ∨
      a.recipe.meal_type = "Drink")
    (hWFL : ∀ a ∈ P, a.meal = "Lunch" →
      a.recipe.meal_type = "Main Course" ∨ a.recipe.meal_type = "Side Dish" ∨
      a.recipe.meal_type = "Salad" ∨ a.recipe.meal_type = "Soup")
    (hWFD : ∀ a ∈ P, a.meal = "Dinner" →
      a.recipe.meal_type = "Main Course" ∨ a.recipe.meal_type = "Side Dish" ∨
      a.recipe.meal_type = "Salad" ∨ a.recipe.meal_type = "Soup" ∨
      a.recipe.meal_type = "Dessert")
    (hM : ∀ a ∈ P, a.meal = "Breakfast" ∨ a.meal = "Lunch" ∨ a.meal = "Dinner")
    (hstruct : structuralOK P sel) :
    countTag "Breakfast" (buildResult P sel t s).breakfast = 1 ∧
    countFruitDrink (buildResult P sel t s).breakfast = 1 ∧
    (buildResult P sel t s).breakfast.length = 2 ∧
    countTag "Main Course" (buildResult P sel t s).lunch = 1 ∧
    countLunchComp (buildResult P sel t s).lunch ≤ 2 ∧
    (buildResult P sel t s).lunch.length = 1 + countLunchComp (buildResult P sel t s).lunch ∧
    (lunchCompItems P ≠ [] → 1 ≤ countLunchComp (buildResult P sel t s).lunch) ∧
    countTag "Main Course" (buildResult P sel t s).dinner = 1 ∧
    countDinnerComp (buildResult P sel t s).dinner ≤ 2 ∧
    (buildResult P sel t s).dinner.length = 1 + countDinnerComp (buildResult P sel t s).dinner ∧
    (dinnerCompItems P ≠ [] → 1 ≤ countDinnerComp (buildResult P sel t s).dinner) ∧
    countTag "Dessert" (buildResult P sel t s).dinner ≤ 1 ∧
    6 ≤ (buildResult P sel t s).breakfast.length + (buildResult P sel t s).lunch.length +
      (buildResult P sel t s).dinner.length ∧
    (buildResult P sel t s).breakfast.length + (buildResult P sel t s).lunch.length +
      (buildResult P sel t s).dinner.length ≤ 8 := by
  obtain ⟨hs1, hs2, hs3, hs4, hs5, hs6, hs7, hs8⟩ := hstruct
  obtain ⟨r1, r2, r3⟩ := reorder_counts (mealListOf P sel "Breakfast")
  have hcb := countTag_breakfast_list P sel hs1
  have hcfd := countFruitDrink_breakfast_list P sel hs2
  have hbeq := buildResult_breakfast_eq P sel t s
  have hleq := buildResult_lunch_eq P sel t s
  have hdeq := buildResult_dinner_eq P sel t s
  have hlc : countLunchComp (buildResult P sel t s).lunch = nsel sel (lunchCompItems P) := by
    rw [hleq]
    exact countLunchComp_list P sel
  have hdc : countDinnerComp (buildResult P sel t s).dinner = nsel sel (dinnerCompItems P) := by
    rw [hdeq]
    exact countDinnerComp_list P sel
  have hdess : countTag "Dessert" (buildResult P sel t s).dinner = nsel sel (dessertItems P) := by
    rw [hdeq]
    exact countTag_dessert_list P sel
  have hlunchlen := length_lunch_list P sel hWFL
  have hdinnerlen := length_dinner_list P sel hWFD
  have hbreaklen := length_breakfast_list P sel hWFB
  have hlmain : countTag "Main Course" (buildResult P sel t s).lunch = 1 := by
    rw [hleq]
    exact countTag_main_list P sel "Lunch" hs3
  have hdmain : countTag "Main Course" (buildResult P sel t s).dinner = 1 := by
    rw [hdeq]
    exact countTag_main_list P sel "Dinner" hs5
  have hlcomp2 : countLunchComp (buildResult P sel t s).lunch ≤ 2 := by
    rw [hlc]
    by_cases hle : lunchCompItems P = []
    · rw [hle, nsel_nil]
      omega
    · exact (hs4 hle).2
  have hdcomp2 : countDinnerComp (buildResult P sel t s).dinner ≤ 2 := by
    rw [hdc]
    by_cases hde : dinnerCompItems P = []
    · rw [hde, nsel_nil]
      omega
    · exact (hs6 hde).2.1
  have hdessert1 : countTag "Dessert" (buildResult P sel t s).dinner ≤ 1 := by
    rw [hdess]
    by_cases hd0 : dessertItems P = []
    · rw [hd0, nsel_nil]
      omega
    · rcases List.exists_mem_of_ne_nil _ hd0 with ⟨a, ha⟩
      have hne : dinnerCompItems P ≠ [] :=
        List.ne_nil_of_mem (dessertItems_subset_dinnerComp ha)
      exact (hs6 hne).2.2 hd0
  have hblen2 : (buildResult P sel t s).breakfast.length = 2 := by
    rw [hbeq, r3, hcb, hcfd]
  have hblen_eq : (buildResult P sel t s).breakfast.length
      = (mealListOf P sel "Breakfast").length := by
    rw [hbeq, r3, hbreaklen]
  have hllen : (buildResult P sel t s).lunch.length
      = 1 + countLunchComp (buildResult P sel t s).lunch := by
    rw [hleq, hlunchlen, countTag_main_list P sel "Lunch" hs3]
  have hdlen : (buildResult P sel t s).dinner.length
      = 1 + countDinnerComp (buildResult P sel t s).dinner := by
    rw [hdeq, hdinnerlen, countTag_main_list P sel "Dinner" hs5]
  have htotal : (buildResult P sel t s).breakfast.length +
      (buildResult P sel t s).lunch.length + (buildResult P sel t s).dinner.length
      = nsel sel P := by
    rw [hblen_eq, hleq, hdeq, total_split P sel hM]
  refine ⟨(hbeq ▸ r1).trans hcb, (hbeq ▸ r2).trans hcfd, hblen2, hlmain, hlcomp2, ?_, ?_,
    hdmain, hdcomp2, hdlen, ?_, hdessert1, ?_, ?_⟩
  · exact hllen
  · intro hne
    rw [hlc]
    exact (hs4 hne).1
  · intro hne
    rw [hdc]
    exact (hs6 hne).1
  · omega
  · omega

/-- Case analysis for a successful `create_daily_plan_global` run: the
result comes either from the strict solve or from the single relaxed
retry after an `Infeasible` strict solve. -/
theorem create_daily_plan_global_some_cases {pools : MealPools} {t : Targets}
    {used : List Int} {cap : Option ℚ}
    {sampleFn : List AssignedRecipe → Nat → List AssignedRecipe}
    {solve : Nat → Option ℚ → SolveOutcome} {r : DayResult}
    (h : create_daily_plan_global pools t used cap sampleFn solve = some r) :
    (∃ sel d, solve 0 cap = .optimal sel d ∧
      extractPlan (effectivePool pools used sampleFn) sel t = some r) ∨
    (∃ sel d, solve 0 cap = .infeasible ∧ solve 1 none = .optimal sel d ∧
      extractRelaxedPlan (effectivePool pools used sampleFn) sel t = some r) := by
  rw [create_daily_plan_global_eq] at h
  simp only at h
  split at h
  · cases h
  · split at h
    · cases h
    · split at h
      · cases h
      · split at h
        · cases h
        · split at h
          · cases h
          · split at h
            · rename_i sel d heq
              exact Or.inl ⟨sel, d, heq, h⟩
            · rename_i heq
              split at h
              · rename_i sel d heq2
                exact Or.inr ⟨sel, d, heq, heq2, h⟩
              · cases h
            · cases h

theorem extractPlan_some {P : List AssignedRecipe} {sel : Int → Bool} {t : Targets}
    {r : DayResult} (h : extractPlan P sel t = some r) :
    r = buildResult P sel t "Optimal" := by
  unfold extractPlan at h
  split at h
  · split at h
    · cases h
    · exact (Option.some_inj.mp h).symm
  · cases h

theorem extractRelaxedPlan_some {P : List AssignedRecipe} {sel : Int → Bool} {t : Targets}
    {r : DayResult} (h : extractRelaxedPlan P sel t = some r) :
    r = buildResult P sel t "Optimal_Relaxed" := by
  unfold extractRelaxedPlan at h
  split at h
  · exact (Option.some_inj.mp h).symm
  · cases h

/-- Well-formedness of the effective pool derived from per-pool tag
discipline (what `construct_funnel_pool` guarantees by fetching only
the tags of the meal's structure). -/
theorem effectivePool_tags {pools : MealPools} {used : List Int}
    {sampleFn : List AssignedRecipe → Nat → List AssignedRecipe}
    (hs : ∀ l n, ∀ x ∈ sampleFn l n, x ∈ l)
    (hWFb : ∀ r ∈ pools.breakfast, r.meal_type = "Breakfast" ∨
      r.meal_type = "Fruit" ∨ r.meal_type = "Drink")
    (hWFl : ∀ r ∈ pools.lunch, r.meal_type = "Main Course" ∨
      r.meal_type = "Side Dish" ∨ r.meal_type = "Salad" ∨ r.meal_type = "Soup")
    (hWFd : ∀ r ∈ pools.dinner, r.meal_type = "Main Course" ∨
      r.meal_type = "Side Dish" ∨ r.meal_type = "Salad" ∨ r.meal_type = "Soup" ∨
      r.meal_type = "Dessert") :
    (∀ a ∈ effectivePool pools used sampleFn, a.meal = "Breakfast" →
      a.recipe.meal_type = "Breakfast" ∨ a.recipe.meal_type = "Fruit" ∨
      a.recipe.meal_type = "Drink") ∧
    (∀ a ∈ effectivePool pools used sampleFn, a.meal = "Lunch" →
      a.recipe.meal_type = "Main Course" ∨ a.recipe.meal_type = "Side Dish" ∨
      a.recipe.meal_type = "Salad" ∨ a.recipe.meal_type = "Soup") ∧
    (∀ a ∈ effectivePool pools used sampleFn, a.meal = "Dinner" →
      a.recipe.meal_type = "Main Course" ∨ a.recipe.meal_type = "Side Dish" ∨
      a.recipe.meal_type = "Salad" ∨ a.recipe.meal_type = "Soup" ∨
      a.recipe.meal_type = "Dessert") ∧
    (∀ a ∈ effectivePool pools used sampleFn,
      a.meal = "Breakfast" ∨ a.meal = "Lunch" ∨ a.meal = "Dinner") := by
  refine ⟨?_, ?_, ?_, ?_⟩
  · intro a ha hm
    rcases mem_mergePools (mem_effectivePool hs ha) with h' | h' | h'
    · exact hWFb a.recipe h'.2
    · rw [hm] at h'
      exact absurd h'.1 (by decide)
    · rw [hm] at h'
      exact absurd h'.1 (by decide)
  · intro a ha hm
    rcases mem_mergePools (mem_effectivePool hs ha) with h' | h' | h'
    · rw [hm] at h'
      exact absurd h'.1 (by decide)
    · exact hWFl a.recipe h'.2
    · rw [hm] at h'
      exact absurd h'.1 (by decide)
  · intro a ha hm
    rcases mem_mergePools (mem_effectivePool hs ha) with h' | h' | h'
    · rw [hm] at h'
      exact absurd h'.1 (by decide)
    · rw [hm] at h'
      exact absurd h'.1 (by decide)
    · exact hWFd a.recipe h'.2
  · intro a ha
    rcases mem_mergePools (mem_effectivePool hs ha) with h' | h' | h'
    · exact Or.inl h'.1
    · exact Or.inr (Or.inl h'.1)
    · exact Or.inr (Or.inr h'.1)

instance (P : List AssignedRecipe) (sel : Int → Bool) : Decidable (structuralOK P sel) := by
  unfold structuralOK
  infer_instance

instance (P : List AssignedRecipe) (sel : Int → Bool) (t : Targets) (d : DevVars) :
    Decidable (balanceOK P sel t d) := by
  unfold balanceOK
  infer_instance

instance (t : Targets) (cap : Option ℚ) (d : DevVars) : Decidable (proteinCapOK t cap d) := by
  unfold proteinCapOK
  cases cap <;> infer_instance

instance (P : List AssignedRecipe) (t : Targets) (cap : Option ℚ) (sel : Int → Bool)
    (d : DevVars) : Decidable (satisfiesLP P t cap sel d) := by
  unfold satisfiesLP
  infer_instance

instance (P : List AssignedRecipe) (t : Targets) (sel : Int → Bool) (d : DevVars) :
    Decidable (relaxedSatisfies P t sel d) := by
  unfold relaxedSatisfies
  infer_instance

/-! Concrete fixtures used by witnesses and counterexamples. -/

def rB1 : Recipe := ⟨1, "b1", "Breakfast", 0, 0, 0, 0⟩

def rF1 : Recipe := ⟨2, "f1", "Fruit", 0, 0, 0, 0⟩

def rM1 : Recipe := ⟨3, "m1", "Main Course", 0, 0, 0, 0⟩

def rM2 : Recipe := ⟨4, "m2", "Main Course", 0, 0, 0, 0⟩

def rS1 : Recipe := ⟨5, "s1", "Side Dish", 0, 0, 0, 0⟩

def rS2 : Recipe := ⟨6, "s2", "Side Dish", 0, 0, 0, 0⟩

def zeroTargets : Targets := ⟨0, 0, 0, 0⟩

def zeroDevs : DevVars := ⟨0, 0, 0, 0, 0, 0, 0, 0⟩

/-- Sampler model for `random.sample`: take the first `n`. -/
def takeSample : List AssignedRecipe → Nat → List AssignedRecipe :=
  fun l n => l.take n

def allSel : Int → Bool := fun _ => true

/-- Solver oracle whose strict solve succeeds selecting everything. -/
def solveAll : Nat → Option ℚ → SolveOutcome :=
  fun n _ => if n = 0 then .optimal allSel zeroDevs else .infeasible

/-- Pools whose Lunch pool has a Main Course but no complementary
candidates at all. -/
def poolsNoLunchComp : MealPools := ⟨[rB1, rF1], [rM1], [rM2, rS1, rS2]⟩

/-- Well-formed pools with complementary candidates for both Lunch and
Dinner. -/
def wfPools : MealPools := ⟨[rB1, rF1], [rM1, rS1], [rM2, rS2]⟩

/-- C3 counterexample: with an (entirely possible) candidate pool that
has no complementary candidates for Lunch, the solver's constraints are
satisfiable with a Lunch consisting of the Main Course alone, and
`create_daily_plan_global` then returns that day successfully: the
returned Lunch list has 1 Main Course and 0 complementary dishes,
contradicting the claimed "exactly 1 Main-Course plus 1–2 complementary
recipes" for every successful result. -/
theorem C3_counterexample :
    satisfiesLP (effectivePool poolsNoLunchComp [] takeSample) zeroTargets
      (some 15) allSel zeroDevs ∧
    (create_daily_plan_global poolsNoLunchComp zeroTargets [] (some 15)
        takeSample solveAll).map
      (fun r => (countTag "Main Course" r.lunch, countLunchComp r.lunch, r.lunch.length))
      = some (1, 0, 1) := by
  constructor
  · refine ⟨by decide, ?_, by decide⟩
    have hsel : selectedOf (effectivePool poolsNoLunchComp [] takeSample) allSel
        = [rB1, rF1, rM1, rM2, rS1, rS2] := by decide
    unfold balanceOK
    rw [hsel]
    norm_num [actualOf, rB1, rF1, rM1, rM2, rS1, rS2, zeroTargets, zeroDevs]
  · decide

/-- C3 (amended).  For every successful (non-None) result of
`create_daily_plan_global` — with a sampler that picks from its input,
pools carrying only the meal-appropriate tags (as the Candidate Pool
Builder produces), and a sound solver — the selection satisfies the
hard structural constraints: the Breakfast list has exactly 1
Breakfast-tagged recipe plus exactly 1 recipe tagged Fruit or Drink and
nothing else; the Lunch and Dinner lists each have exactly 1
Main-Course-tagged recipe plus at most 2 complementary recipes
(Side Dish/Salad/Soup, Dessert additionally allowed in Dinner), with at
least 1 complementary recipe whenever the candidate pool offers a
complementary candidate for that meal (when it offers none, the meal is
the main course alone); Dessert is capped at 1 in Dinner; and the total
number of recipes selected for the day is between 6 and 8 inclusive. -/
theorem C3_structural_validity (pools : MealPools) (t : Targets) (used : List Int)
    (cap : Option ℚ) (sampleFn : List AssignedRecipe → Nat → List AssignedRecipe)
    (solve : Nat → Option ℚ → SolveOutcome) (r : DayResult)
    (hs : ∀ l n, ∀ x ∈ sampleFn l n, x ∈ l)
    (hWFb : ∀ x ∈ pools.breakfast, x.meal_type = "Breakfast" ∨
      x.meal_type = "Fruit" ∨ x.meal_type = "Drink")
    (hWFl : ∀ x ∈ pools.lunch, x.meal_type = "Main Course" ∨
      x.meal_type = "Side Dish" ∨ x.meal_type = "Salad" ∨ x.meal_type = "Soup")
    (hWFd : ∀ x ∈ pools.dinner, x.meal_type = "Main Course" ∨
      x.meal_type = "Side Dish" ∨ x.meal_type = "Salad" ∨ x.meal_type = "Soup" ∨
      x.meal_type = "Dessert")
    (hsound0 : ∀ sel d, solve 0 cap = .optimal sel d →
      satisfiesLP (effectivePool pools used sampleFn) t cap sel d)
    (hsound1 : ∀ sel d, solve 1 none = .optimal sel d →
      satisfiesLP (effectivePool pools used sampleFn) t none sel d)
    (hrun : create_daily_plan_global pools t used cap sampleFn solve = some r) :
    countTag "Breakfast" r.breakfast = 1 ∧
    countFruitDrink r.breakfast = 1 ∧
    r.breakfast.length = 2 ∧
    countTag "Main Course" r.lunch = 1 ∧
    countLunchComp r.lunch ≤ 2 ∧
    r.lunch.length = 1 + countLunchComp r.lunch ∧
    (lunchCompItems (effectivePool pools used sampleFn) ≠ [] → 1 ≤ countLunchComp r.lunch) ∧
    countTag "Main Course" r.dinner = 1 ∧
    countDinnerComp r.dinner ≤ 2 ∧
    r.dinner.length = 1 + countDinnerComp r.dinner ∧
    (dinnerCompItems (effectivePool pools used sampleFn) ≠ [] → 1 ≤ countDinnerComp r.dinner) ∧
    countTag "Dessert" r.dinner ≤ 1 ∧
    6 ≤ r.breakfast.length + r.lunch.length + r.dinner.length ∧
    r.breakfast.length + r.lunch.length + r.dinner.length ≤ 8 := by
  obtain ⟨hB, hL, hD, hM⟩ := @effectivePool_tags pools used sampleFn hs hWFb hWFl hWFd
  rcases create_daily_plan_global_some_cases hrun with ⟨sel, d, hsolve, hex⟩ |
    ⟨sel, d, _, hsolve, hex⟩
  · have hsat := hsound0 sel d hsolve
    have hr := extractPlan_some hex
    subst hr
    exact buildResult_structural _ sel t _ hB hL hD hM hsat.1
  · have hsat := hsound1 sel d hsolve
    have hr := extractRelaxedPlan_some hex
    subst hr
    exact buildResult_structural _ sel t _ hB hL hD hM hsat.1

/-- Witness for C3 (amended): a concrete successful run on well-formed
pools, with every hypothesis discharged. -/
theorem C3_structural_validity_witness :
    (create_daily_plan_global wfPools zeroTargets [] (some 15) takeSample solveAll).map
      (fun r => (countTag "Breakfast" r.breakfast, countFruitDrink r.breakfast,
        r.breakfast.length, countTag "Main Course" r.lunch,
        countTag "Main Course" r.dinner)) = some (1, 1, 2, 1, 1) := by
  have hsome : (create_daily_plan_global wfPools zeroTargets [] (some 15) takeSample
      solveAll).isSome = true := by decide
  rcases Option.isSome_iff_exists.mp hsome with ⟨r, hrun⟩
  have hsound0 : ∀ sel d, solveAll 0 (some 15) = .optimal sel d →
      satisfiesLP (effectivePool wfPools [] takeSample) zeroTargets (some 15) sel d := by
    intro sel d h
    rw [show solveAll 0 (some 15) = SolveOutcome.optimal allSel zeroDevs from rfl] at h
    injection h with h1 h2
    subst h1
    subst h2
    refine ⟨by decide, ?_, by decide⟩
    have hsel : selectedOf (effectivePool wfPools [] takeSample) allSel
        = [rB1, rF1, rM1, rS1, rM2, rS2] := by decide
    unfold balanceOK
    rw [hsel]
    norm_num [actualOf, rB1, rF1, rM1, rS1, rM2, rS2, zeroTargets, zeroDevs]
  have hsound1 : ∀ sel d, solveAll 1 none = .optimal sel d →
      satisfiesLP (effectivePool wfPools [] takeSample) zeroTargets none sel d := by
    intro sel d h
    rw [show solveAll 1 none = SolveOutcome.infeasible from rfl] at h
    exact SolveOutcome.noConfusion h
  have h := C3_structural_validity wfPools zeroTargets [] (some 15) takeSample solveAll r
    (fun l n x hx => List.take_subset n l hx)
    (by decide) (by decide) (by decide) hsound0 hsound1 hrun
  obtain ⟨c1, c2, c3, c4, _, _, _, c8, _⟩ := h
  rw [hrun, Option.map_some', c1, c2, c3, c4, c8]

theorem buildResult_reorder (P : List AssignedRecipe) (sel : Int → Bool)
    (t : Targets) (s : String) :
    (buildResult P sel t s).breakfast
      = (buildResult P sel t s).breakfast.filter (fun x => x.meal_type == "Breakfast") ++
        (buildResult P sel t s).breakfast.filter
          (fun x => x.meal_type == "Fruit" || x.meal_type == "Drink") := by
  rw [buildResult_breakfast_eq]
  have hA : ((mealListOf P sel "Breakfast").filter
      (fun r => r.meal_type == "Breakfast")).filter
      (fun x => x.meal_type == "Breakfast")
      = (mealListOf P sel "Breakfast").filter (fun r => r.meal_type == "Breakfast") := by
    apply List.filter_eq_self.mpr
    intro a ha
    exact (List.mem_filter.mp ha).2
  have hB0 : ((mealListOf P sel "Breakfast").filter
      (fun r => r.meal_type == "Fruit" || r.meal_type == "Drink")).filter
      (fun x => x.meal_type == "Breakfast") = [] := by
    apply List.filter_eq_nil_iff.mpr
    intro a ha
    have h2 := (List.mem_filter.mp ha).2
    simp only [Bool.or_eq_true, beq_iff_eq] at h2 ⊢
    rcases h2 with h' | h' <;> rw [h'] <;> decide
  have hA0 : ((mealListOf P sel "Breakfast").filter
      (fun r => r.meal_type == "Breakfast")).filter
      (fun x => x.meal_type == "Fruit" || x.meal_type == "Drink") = [] := by
    apply List.filter_eq_nil_iff.mpr
    intro a ha
    have h2 := (List.mem_filter.mp ha).2
    simp only [Bool.or_eq_true, beq_iff_eq] at h2 ⊢
    rw [h2]
    decide
  have hB : ((mealListOf P sel "Breakfast").filter
      (fun r => r.meal_type == "Fruit" || r.meal_type == "Drink")).filter
      (fun x => x.meal_type == "Fruit" || x.meal_type == "Drink")
      = (mealListOf P sel "Breakfast").filter
        (fun r => r.meal_type == "Fruit" || r.meal_type == "Drink") := by
    apply List.filter_eq_self.mpr
    intro a ha
    exact (List.mem_filter.mp ha).2
  rw [List.filter_append, List.filter_append, hA, hB0, hA0, hB]
  simp

/-- C10: in every successful result of `create_daily_plan_global` (both
the strict and the relaxed-retry path), the returned Breakfast list is
reordered so that all Breakfast-tagged recipes come before any Fruit- or
Drink-tagged recipes — it is exactly its Breakfast-tagged part followed
by its Fruit/Drink-tagged part. -/
theorem C10_breakfast_reorder (pools : MealPools) (t : Targets) (used : List Int)
    (cap : Option ℚ) (sampleFn : List AssignedRecipe → Nat → List AssignedRecipe)
    (solve : Nat → Option ℚ → SolveOutcome) (r : DayResult)
    (hrun : create_daily_plan_global pools t used cap sampleFn solve = some r) :
    r.breakfast
      = r.breakfast.filter (fun x => x.meal_type == "Breakfast") ++
        r.breakfast.filter (fun x => x.meal_type == "Fruit" || x.meal_type == "Drink") := by
  rcases create_daily_plan_global_some_cases hrun with ⟨sel, d, _, hex⟩ | ⟨sel, d, _, _, hex⟩
  · rw [extractPlan_some hex]
    exact buildResult_reorder _ sel t _
  · rw [extractRelaxedPlan_some hex]
    exact buildResult_reorder _ sel t _

/-- Witness for C10: the reorder equation holds on a concrete
successful run. -/
theorem C10_breakfast_reorder_witness :
    (create_daily_plan_global wfPools zeroTargets [] (some 15) takeSample solveAll).map
      (fun r => r.breakfast ==
        r.breakfast.filter (fun x => x.meal_type == "Breakfast") ++
        r.breakfast.filter (fun x => x.meal_type == "Fruit" || x.meal_type == "Drink"))
      = some true := by
  have hsome : (create_daily_plan_global wfPools zeroTargets [] (some 15) takeSample
      solveAll).isSome = true := by decide
  rcases Option.isSome_iff_exists.mp hsome with ⟨r, hrun⟩
  have hc := C10_breakfast_reorder wfPools zeroTargets [] (some 15) takeSample solveAll r hrun
  rw [hrun, Option.map_some', ← hc]
  simp

theorem buildResult_deviations_eq (P : List AssignedRecipe) (sel : Int → Bool)
    (t : Targets) (s : String) :
    (buildResult P sel t s).deviations
      = mkDeviations t (actualOf (selectedOf P sel)) := rfl

theorem lookup_protein (t act : Targets) (hp : 0 < t.protein_g) :
    (mkDeviations t act).lookup "protein_g"
      = some (devEntryOf t.protein_g act.protein_g) := by
  unfold mkDeviations
  rw [if_pos hp]
  by_cases hc : t.calories > 0
  · rw [if_pos hc]
    rfl
  · rw [if_neg hc]
    rfl

theorem mem_mkDeviations {t act : Targets} {p : String × DevEntry}
    (h : p ∈ mkDeviations t act) : ∃ tv av, p.2 = devEntryOf tv av := by
  unfold mkDeviations at h
  rcases List.mem_append.mp h with h1 | h1
  · rcases List.mem_append.mp h1 with h2 | h2
    · rcases List.mem_append.mp h2 with h3 | h3
      · split at h3
        · rw [List.mem_singleton] at h3
          exact ⟨_, _, by rw [h3]⟩
        · cases h3
      · split at h3
        · rw [List.mem_singleton] at h3
          exact ⟨_, _, by rw [h3]⟩
        · cases h3
    · split at h2
      · rw [List.mem_singleton] at h2
        exact ⟨_, _, by rw [h2]⟩
      · cases h2
  · split at h1
    · rw [List.mem_singleton] at h1
      exact ⟨_, _, by rw [h1]⟩
    · cases h1

theorem devEntry_formula {e : DevEntry} (tv av : ℚ) (h : e = devEntryOf tv av) :
    e.deviation_pct = |e.actual - e.target| / e.target * 100 := by
  subst h
  rfl

theorem dev_pct_le {tp pct actp pos neg : ℚ} (htp : 0 < tp)
    (hbal : actp - tp = pos - neg) (hpos0 : 0 ≤ pos) (hneg0 : 0 ≤ neg)
    (hposc : pos ≤ tp * (pct / 100)) (hnegc : neg ≤ tp * (pct / 100)) :
    |actp - tp| / tp * 100 ≤ pct := by
  have habs : |actp - tp| ≤ tp * (pct / 100) := by
    rw [hbal, abs_le]
    constructor <;> linarith
  rw [div_mul_eq_mul_div, div_le_iff₀ htp]
  have h100 : (0 : ℚ) ≤ 100 := by norm_num
  have h2 := mul_le_mul_of_nonneg_right habs h100
  have h3 : tp * (pct / 100) * 100 = pct * tp := by ring
  linarith

/-- C6: in `create_daily_plan_global`, when `max_protein_deviation_pct`
is set and the protein target is positive, both protein deviation
variables are bounded by `target * pct/100`, so any returned solution of
the strict (status `Optimal`) solve has a reported protein
`deviation_pct` of at most the configured percentage; and every reported
`deviation_pct` equals `abs(actual - target)/target * 100`. -/
theorem C6_protein_cap (pools : MealPools) (t : Targets) (used : List Int)
    (pct : ℚ) (sampleFn : List AssignedRecipe → Nat → List AssignedRecipe)
    (solve : Nat → Option ℚ → SolveOutcome) (sel : Int → Bool) (d : DevVars)
    (r : DayResult)
    (hsolve : solve 0 (some pct) = .optimal sel d)
    (hsat : satisfiesLP (effectivePool pools used sampleFn) t (some pct) sel d)
    (hrun : create_daily_plan_global pools t used (some pct) sampleFn solve = some r)
    (hp : 0 < t.protein_g) :
    (∀ e, r.deviations.lookup "protein_g" = some e → e.deviation_pct ≤ pct) ∧
    (∀ p ∈ r.deviations,
      p.2.deviation_pct = |p.2.actual - p.2.target| / p.2.target * 100) := by
  rcases create_daily_plan_global_some_cases hrun with ⟨sel', d', hsolve', hex⟩ |
    ⟨sel', d', hsolve', _, _⟩
  · rw [hsolve] at hsolve'
    injection hsolve' with h1 h2
    subst h1
    subst h2
    have hr := extractPlan_some hex
    subst hr
    rw [buildResult_deviations_eq]
    constructor
    · intro e he
      rw [lookup_protein _ _ hp] at he
      injection he with he
      subst he
      obtain ⟨_, hbal, hcap⟩ := hsat
      obtain ⟨_, _, hpos0, hneg0, _, _, _, _, _, hbalP, _, _⟩ := hbal
      obtain ⟨hposc, hnegc⟩ := hcap hp
      exact dev_pct_le hp hbalP hpos0 hneg0 hposc hnegc
    · intro p hmem
      rcases mem_mkDeviations hmem with ⟨tv, av, he⟩
      exact devEntry_formula tv av he
  · rw [hsolve] at hsolve'
    exact SolveOutcome.noConfusion hsolve'

def rB1p : Recipe := ⟨1, "b1", "Breakfast", 0, 5, 0, 0⟩

def rF1p : Recipe := ⟨2, "f1", "Fruit", 0, 5, 0, 0⟩

/-- Pools whose selected day totals 10 g protein. -/
def proteinPools : MealPools := ⟨[rB1p, rF1p], [rM1, rS1], [rM2, rS2]⟩

def proteinTargets : Targets := ⟨0, 10, 0, 0⟩

/-- Witness for C6: a concrete strict-optimal run with protein target
10 g and cap 15 %, whose reported protein deviation is at most 15. -/
theorem C6_protein_cap_witness :
    (create_daily_plan_global proteinPools proteinTargets [] (some 15) takeSample
        solveAll).map
      (fun r => (r.deviations.lookup "protein_g").map
        (fun e => decide (e.deviation_pct ≤ 15)))
      = some (some true) := by
  have hsome : (create_daily_plan_global proteinPools proteinTargets [] (some 15)
      takeSample solveAll).isSome = true := by decide
  rcases Option.isSome_iff_exists.mp hsome with ⟨r, hrun⟩
  have hsolve : solveAll 0 (some 15) = .optimal allSel zeroDevs := rfl
  have hsat : satisfiesLP (effectivePool proteinPools [] takeSample) proteinTargets
      (some 15) allSel zeroDevs := by
    refine ⟨by decide, ?_, ?_⟩
    · have hsel : selectedOf (effectivePool proteinPools [] takeSample) allSel
          = [rB1p, rF1p, rM1, rS1, rM2, rS2] := by decide
      unfold balanceOK
      rw [hsel]
      norm_num [actualOf, rB1p, rF1p, rM1, rS1, rM2, rS2, proteinTargets, zeroDevs]
    · intro hpos
      constructor <;> norm_num [proteinTargets, zeroDevs]
  have hp : (0 : ℚ) < proteinTargets.protein_g := by norm_num [proteinTargets]
  have h := C6_protein_cap proteinPools proteinTargets [] 15 takeSample solveAll
    allSel zeroDevs r hsolve hsat hrun hp
  rw [hrun, Option.map_some']
  cases he : r.deviations.lookup "protein_g" with
  | none =>
    exfalso
    rcases create_daily_plan_global_some_cases hrun with ⟨sel', d', hs', hex⟩ |
      ⟨sel', d', hs', _, _⟩
    · rw [hsolve] at hs'
      injection hs' with h1 h2
      subst h1
      subst h2
      rw [extractPlan_some hex, buildResult_deviations_eq, lookup_protein _ _ hp] at he
      cases he
    · rw [hsolve] at hs'
      exact SolveOutcome.noConfusion hs'
  | some e =>
    have hle := h.1 e he
    simp [hle]

theorem buildResult_status (P : List AssignedRecipe) (sel : Int → Bool)
    (t : Targets) (s : String) : (buildResult P sel t s).status = s := rfl

/-- C5: when the strict solve reports `Infeasible`,
`create_daily_plan_global` retries exactly once with the hard protein
cap removed and everything else identical — the rebuilt relaxed
constraint set coincides with the strict one at `cap = none`, the
rebuilt objective is the strict objective, the whole run consults the
solver only on attempt 0 (with the configured cap) and attempt 1 (with
no cap) — before returning `none` upward; a successful retry is
reported with status `Optimal_Relaxed`, a strict success with
`Optimal`, and a non-Infeasible failure is not retried. -/
theorem C5_relaxed_retry :
    (∀ (P : List AssignedRecipe) (t : Targets) (sel : Int → Bool) (d : DevVars),
      relaxedSatisfies P t sel d ↔ satisfiesLP P t none sel d) ∧
    (∀ d : DevVars, relaxedObjective d = strictObjective d) ∧
    (∀ (pools : MealPools) (t : Targets) (used : List Int) (cap : Option ℚ)
      (sampleFn : List AssignedRecipe → Nat → List AssignedRecipe)
      (s s' : Nat → Option ℚ → SolveOutcome),
      s 0 cap = s' 0 cap → s 1 none = s' 1 none →
      create_daily_plan_global pools t used cap sampleFn s =
        create_daily_plan_global pools t used cap sampleFn s') ∧
    (∀ (pools : MealPools) (t : Targets) (used : List Int) (cap : Option ℚ)
      (sampleFn : List AssignedRecipe → Nat → List AssignedRecipe)
      (s : Nat → Option ℚ → SolveOutcome) (sel : Int → Bool) (d : DevVars)
      (r : DayResult),
      s 0 cap = .infeasible → s 1 none = .optimal sel d →
      create_daily_plan_global pools t used cap sampleFn s = some r →
      r.status = "Optimal_Relaxed") ∧
    (∀ (pools : MealPools) (t : Targets) (used : List Int) (cap : Option ℚ)
      (sampleFn : List AssignedRecipe → Nat → List AssignedRecipe)
      (s : Nat → Option ℚ → SolveOutcome) (sel : Int → Bool) (d : DevVars)
      (r : DayResult),
      s 0 cap = .optimal sel d →
      create_daily_plan_global pools t used cap sampleFn s = some r →
      r.status = "Optimal") ∧
    (∀ (pools : MealPools) (t : Targets) (used : List Int) (cap : Option ℚ)
      (sampleFn : List AssignedRecipe → Nat → List AssignedRecipe)
      (s : Nat → Option ℚ → SolveOutcome),
      s 0 cap = .other →
      create_daily_plan_global pools t used cap sampleFn s = none) ∧
    (∀ (pools : MealPools) (t : Targets) (used : List Int) (cap : Option ℚ)
      (sampleFn : List AssignedRecipe → Nat → List AssignedRecipe)
      (s : Nat → Option ℚ → SolveOutcome),
      s 0 cap = .infeasible →
      (s 1 none = .infeasible ∨ s 1 none = .other) →
      create_daily_plan_global pools t used cap sampleFn s = none) := by
  refine ⟨?_, ?_, ?_, ?_, ?_, ?_, ?_⟩
  · intro P t sel d
    constructor
    · rintro ⟨h1, h2⟩
      exact ⟨h1, h2, trivial⟩
    · rintro ⟨h1, h2, _⟩
      exact ⟨h1, h2⟩
  · intro d
    rfl
  · intro pools t used cap sampleFn s s' h0 h1
    rw [create_daily_plan_global_eq, create_daily_plan_global_eq, h0, h1]
  · intro pools t used cap sampleFn s sel d r h0 h1 hrun
    rcases create_daily_plan_global_some_cases hrun with ⟨sel', d', hs', hex⟩ |
      ⟨sel', d', _, _, hex⟩
    · rw [h0] at hs'
      exact SolveOutcome.noConfusion hs'
    · rw [extractRelaxedPlan_some hex]
      rfl
  · intro pools t used cap sampleFn s sel d r h0 hrun
    rcases create_daily_plan_global_some_cases hrun with ⟨sel', d', _, hex⟩ |
      ⟨sel', d', hs', _, _⟩
    · rw [extractPlan_some hex]
      rfl
    · rw [h0] at hs'
      exact SolveOutcome.noConfusion hs'
  · intro pools t used cap sampleFn s h0
    rw [create_daily_plan_global_eq]
    simp only [h0]
    split
    · rfl
    · split
      · rfl
      · split
        · rfl
        · split
          · rfl
          · split
            · rfl
            · rfl
  · intro pools t used cap sampleFn s h0 h1
    rw [create_daily_plan_global_eq]
    rcases h1 with h1 | h1 <;> simp only [h0, h1] <;>
      (split
       · rfl
       · split
         · rfl
         · split
           · rfl
           · split
             · rfl
             · split
               · rfl
               · rfl)

def solveRelax : Nat → Option ℚ → SolveOutcome :=
  fun n _ => if n = 0 then .infeasible else .optimal allSel zeroDevs

/-- Witness for C5: a concrete run whose strict solve is infeasible and
whose single retry succeeds is reported as `Optimal_Relaxed`. -/
theorem C5_relaxed_retry_witness :
    (create_daily_plan_global wfPools zeroTargets [] (some 15) takeSample
        solveRelax).map (fun r => r.status) = some "Optimal_Relaxed" := by
  have hsome : (create_daily_plan_global wfPools zeroTargets [] (some 15) takeSample
      solveRelax).isSome = true := by decide
  rcases Option.isSome_iff_exists.mp hsome with ⟨r, hrun⟩
  have h := C5_relaxed_retry.2.2.2.1 wfPools zeroTargets [] (some 15) takeSample
    solveRelax allSel zeroDevs r rfl rfl hrun
  rw [hrun, Option.map_some', h]

theorem effectivePool_eq_merge {pools : MealPools} {used : List Int}
    {sampleFn : List AssignedRecipe → Nat → List AssignedRecipe}
    (h : ¬ (mergePools pools used).length > 600) :
    effectivePool pools used sampleFn = mergePools pools used := by
  unfold effectivePool
  simp [h]

theorem filter_empty_of_subset {P M : List AssignedRecipe} (q : AssignedRecipe → Bool)
    (hsub : ∀ a ∈ P, a ∈ M) (h : M.filter q = []) : P.filter q = [] := by
  apply List.filter_eq_nil_iff.mpr
  intro a ha
  exact List.filter_eq_nil_iff.mp h a (hsub a ha)

/-- C9: `create_daily_plan_global` returns `None` — for every solver
oracle whatsoever, i.e. without consulting the MILP solver — whenever,
after filtering out used ids and deduplicating, the combined candidate
pool has fewer than 6 recipes, or has no Breakfast-tagged recipe
assigned to Breakfast, no Fruit- or Drink-tagged recipe assigned to
Breakfast, no Main Course assigned to Lunch, or no Main Course assigned
to Dinner; these precondition failures yield `None` rather than an
exception. -/
theorem C9_precondition_failures (pools : MealPools) (t : Targets) (used : List Int)
    (cap : Option ℚ) (sampleFn : List AssignedRecipe → Nat → List AssignedRecipe)
    (solve : Nat → Option ℚ → SolveOutcome)
    (hs : ∀ l n, ∀ x ∈ sampleFn l n, x ∈ l)
    (hfail : (mergePools pools used).length < 6 ∨
      breakfastItems (mergePools pools used) = [] ∨
      (fruitItems (mergePools pools used) = [] ∧
        drinkItems (mergePools pools used) = []) ∨
      lunchMainItems (mergePools pools used) = [] ∨
      dinnerMainItems (mergePools pools used) = []) :
    create_daily_plan_global pools t used cap sampleFn solve = none := by
  have hsub : ∀ a ∈ effectivePool pools used sampleFn, a ∈ mergePools pools used :=
    fun a ha => mem_effectivePool hs ha
  rw [create_daily_plan_global_eq]
  simp only
  rcases hfail with h | h | ⟨hf, hd⟩ | h | h
  · have hP : effectivePool pools used sampleFn = mergePools pools used :=
      effectivePool_eq_merge (by omega)
    rw [hP, if_pos h]
  · have hPb : breakfastItems (effectivePool pools used sampleFn) = [] := by
      unfold breakfastItems itemsOf at h ⊢
      exact filter_empty_of_subset _ hsub h
    split <;> simp_all
  · have hPf : fruitItems (effectivePool pools used sampleFn) = [] := by
      unfold fruitItems itemsOf at hf ⊢
      exact filter_empty_of_subset _ hsub hf
    have hPd : drinkItems (effectivePool pools used sampleFn) = [] := by
      unfold drinkItems itemsOf at hd ⊢
      exact filter_empty_of_subset _ hsub hd
    split <;> try rfl
    all_goals simp_all
  · have hPl : lunchMainItems (effectivePool pools used sampleFn) = [] := by
      unfold lunchMainItems itemsOf at h ⊢
      exact filter_empty_of_subset _ hsub h
    split <;> try rfl
    all_goals simp_all
  · have hPd : dinnerMainItems (effectivePool pools used sampleFn) = [] := by
      unfold dinnerMainItems itemsOf at h ⊢
      exact filter_empty_of_subset _ hsub h
    split <;> try rfl
    all_goals simp_all

def rS3 : Recipe := ⟨7, "s3", "Side Dish", 0, 0, 0, 0⟩

/-- Six recipes but no Main Course for Lunch. -/
def noLunchMainPools : MealPools := ⟨[rB1, rF1], [rS1], [rM2, rS2, rS3]⟩

/-- Witness for C9: a pool of six recipes without a Lunch Main Course
makes the day fail with `None` for any solver. -/
theorem C9_precondition_failures_witness :
    create_daily_plan_global noLunchMainPools zeroTargets [] (some 15) takeSample
      solveAll = none :=
  C9_precondition_failures noLunchMainPools zeroTargets [] (some 15) takeSample
    solveAll (fun l n x hx => List.take_subset n l hx)
    (Or.inr (Or.inr (Or.inr (Or.inl (by decide)))))

/-- The meal assigned to an id by the merge, when present. -/
def assignedMealOf (l : List AssignedRecipe) (i : Int) : Option String :=
  (findById l i).map (fun a => a.meal)

/-- C7: when the three meal pools are merged, every recipe id occurs
exactly once in the combined pool (`Nodup` of the id list); an id
present in several pools is assigned to exactly one meal following the
fixed priority Breakfast > Lunch > Dinner; and the stratified
downsampling applied above 600 recipes preserves id uniqueness for
every sampling behaviour. -/
theorem C7_merge_priority (pools : MealPools) (used : List Int) (i : Int)
    (sampleFn : List AssignedRecipe → Nat → List AssignedRecipe)
    (pool : List AssignedRecipe) :
    (idsOf (mergePools pools used)).Nodup ∧
    (i ∈ pools.breakfast.map Recipe.id → i ∉ used →
      assignedMealOf (mergePools pools used) i = some "Breakfast") ∧
    (i ∉ pools.breakfast.map Recipe.id → i ∈ pools.lunch.map Recipe.id → i ∉ used →
      assignedMealOf (mergePools pools used) i = some "Lunch") ∧
    (i ∉ pools.breakfast.map Recipe.id → i ∉ pools.lunch.map Recipe.id →
      i ∈ pools.dinner.map Recipe.id → i ∉ used →
      assignedMealOf (mergePools pools used) i = some "Dinner") ∧
    (idsOf (reducePool sampleFn pool)).Nodup := by
  refine ⟨idsOf_mergePools_nodup pools used, ?_, ?_, ?_,
    idsOf_reducePool_nodup sampleFn pool⟩
  · intro hmem hused
    rcases @findById_mergeInto_new "Breakfast" pools.breakfast used [] i
      rfl hmem hused with ⟨a, hfind, hmeal⟩
    have hc1 : containsId (mergeInto "Breakfast" pools.breakfast used []) i = true := by
      rw [containsId_eq_isSome, hfind]
      rfl
    have hc2 : containsId (mergeInto "Lunch" pools.lunch used
        (mergeInto "Breakfast" pools.breakfast used [])) i = true :=
      containsId_mono _ _ _ hc1
    unfold mergePools assignedMealOf
    rw [findById_mergeInto_of_contains hc2, findById_mergeInto_of_contains hc1, hfind]
    simp [hmeal]
  · intro hnb hmem hused
    have hnc1 : containsId (mergeInto "Breakfast" pools.breakfast used []) i = false := by
      cases hc : containsId (mergeInto "Breakfast" pools.breakfast used []) i
      · rfl
      · rcases containsId_mergeInto_iff hc with h' | h'
        · cases h'
        · exact absurd h' hnb
    rcases @findById_mergeInto_new "Lunch" pools.lunch used
      (mergeInto "Breakfast" pools.breakfast used []) i
      hnc1 hmem hused with ⟨a, hfind, hmeal⟩
    have hc2 : containsId (mergeInto "Lunch" pools.lunch used
        (mergeInto "Breakfast" pools.breakfast used [])) i = true := by
      rw [containsId_eq_isSome, hfind]
      rfl
    unfold mergePools assignedMealOf
    rw [findById_mergeInto_of_contains hc2, hfind]
    simp [hmeal]
  · intro hnb hnl hmem hused
    have hnc1 : containsId (mergeInto "Breakfast" pools.breakfast used []) i = false := by
      cases hc : containsId (mergeInto "Breakfast" pools.breakfast used []) i
      · rfl
      · rcases containsId_mergeInto_iff hc with h' | h'
        · cases h'
        · exact absurd h' hnb
    have hnc2 : containsId (mergeInto "Lunch" pools.lunch used
        (mergeInto "Breakfast" pools.breakfast used [])) i = false := by
      cases hc : containsId (mergeInto "Lunch" pools.lunch used
          (mergeInto "Breakfast" pools.breakfast used [])) i
      · rfl
      · rcases containsId_mergeInto_iff hc with h' | h'
        · rw [h'] at hnc1
          cases hnc1
        · exact absurd h' hnl
    rcases @findById_mergeInto_new "Dinner" pools.dinner used
      (mergeInto "Lunch" pools.lunch used
        (mergeInto "Breakfast" pools.breakfast used [])) i
      hnc2 hmem hused with ⟨a, hfind, hmeal⟩
    unfold mergePools assignedMealOf
    rw [hfind]
    simp [hmeal]

/-- Witness for C7: id 3 sits in both the Lunch and the Dinner pool of
a concrete input and is assigned to Lunch. -/
theorem C7_merge_priority_witness :
    assignedMealOf (mergePools ⟨[rB1, rF1], [rM1, rS1], [rM1, rM2]⟩ []) 3
      = some "Lunch" := by
  have h := (C7_merge_priority ⟨[rB1, rF1], [rM1, rS1], [rM1, rM2]⟩ [] 3
    takeSample []).2.2.1
  exact h (by decide) (by decide) (by decide)

/-- One day of the weekly plan as stored by the Orchestrator
(`day_plan`, `planner_service.py` lines 728-732). -/
structure DayPlanT where
  breakfast : List Recipe
  lunch : List Recipe
  dinner : List Recipe
deriving DecidableEq

/-- All recipe ids of a day, across its three meals
(`day_recipe_ids`). -/
def dayIds (dp : DayPlanT) : List Int :=
  (dp.breakfast ++ dp.lunch ++ dp.dinner).map Recipe.id

def toDayPlan (r : DayResult) : DayPlanT :=
  ⟨r.breakfast, r.lunch, r.dinner⟩

/-- Per-day bookkeeping of the Orchestrator
(`planner_service.py` lines 756-780): the inter-day check (no selected
id already used), the intra-day check (no id twice within the day), and
only then the extension of the Used-Recipe Set with the day's ids. -/
def dayStep (used : List Int) (dp : DayPlanT) : Option (List Int) :=
  if ∃ i ∈ dayIds dp, i ∈ used then none
  else if ¬ (dayIds dp).Nodup then none
  else some (used ++ dayIds dp)

/-- The optimizer day loop of `generate_full_meal_plan`
(`planner_service.py` lines 679-817): for each day, candidate pools and
the daily solver (abstracted into `dayFn`, `None` = pool-construction or
solver failure), then the duplicate checks, then committing the day
under its `"Day k"` key; any failure aborts the whole run with `none`. -/
def runFrom (dayFn : Nat → List Int → Option DayResult) :
    Nat → Nat → List Int → Option (List (String × DayPlanT))
  | _, 0, _ => some []
  | day, n + 1, used =>
    match dayFn day used with
    | none => none
    | some res =>
      match dayStep used (toDayPlan res) with
      | none => none
      | some usedNext =>
        (runFrom dayFn (day + 1) n usedNext).map
          (fun rest => ("Day " ++ toString day, toDayPlan res) :: rest)

/-- The whole optimizer path: days 1..n, starting from an empty
Used-Recipe Set. -/
def runOptimizerLoop (dayFn : Nat → List Int → Option DayResult) (n : Nat) :
    Option (List (String × DayPlanT)) :=
  runFrom dayFn 1 n []

/-- All recipe ids of a multi-day plan, in day order. -/
def planIds (plan : List (String × DayPlanT)) : List Int :=
  (plan.map (fun e => dayIds e.2)).flatten

theorem planIds_cons (e : String × DayPlanT) (plan : List (String × DayPlanT)) :
    planIds (e :: plan) = dayIds e.2 ++ planIds plan := by
  simp [planIds]

theorem planIds_append (l1 l2 : List (String × DayPlanT)) :
    planIds (l1 ++ l2) = planIds l1 ++ planIds l2 := by
  simp [planIds]

theorem dayStep_some {used : List Int} {dp : DayPlanT} {u' : List Int}
    (h : dayStep used dp = some u') :
    u' = used ++ dayIds dp ∧ (∀ i ∈ dayIds dp, i ∉ used) ∧ (dayIds dp).Nodup := by
  unfold dayStep at h
  split at h
  · cases h
  · split at h
    · cases h
    · rename_i h1 h2
      push_neg at h1
      rw [not_not] at h2
      exact ⟨(Option.some_inj.mp h).symm, h1, h2⟩

theorem runFrom_invariant (dayFn : Nat → List Int → Option DayResult) :
    ∀ (n day : Nat) (used : List Int) (plan : List (String × DayPlanT)),
    runFrom dayFn day n used = some plan →
    (∀ i ∈ planIds plan, i ∉ used) ∧ (planIds plan).Nodup := by
  intro n
  induction n with
  | zero =>
    intro day used plan h
    simp only [runFrom] at h
    rw [← Option.some_inj.mp h]
    constructor
    · intro i hi
      cases hi
    · exact List.nodup_nil
  | succ n ih =>
    intro day used plan h
    simp only [runFrom] at h
    split at h
    · cases h
    · rename_i res hd
      split at h
      · cases h
      · rename_i usedNext hds
        rcases Option.map_eq_some'.mp h with ⟨rest, hrest, hplan⟩
        obtain ⟨hu', hfresh, hnodup⟩ := dayStep_some hds
        obtain ⟨ihfresh, ihnodup⟩ := ih (day + 1) usedNext rest hrest
        subst hu'
        rw [← hplan, planIds_cons]
        constructor
        · intro i hi
          rcases List.mem_append.mp hi with hi' | hi'
          · exact hfresh i hi'
          · intro hiu
            exact ihfresh i hi' (List.mem_append.mpr (Or.inl hiu))
        · apply List.Nodup.append hnodup ihnodup
          intro i hi1 hi2
          exact ihfresh i hi2 (List.mem_append.mpr (Or.inr hi1))

theorem nodup_dayIds_of_planIds {plan : List (String × DayPlanT)}
    (h : (planIds plan).Nodup) : ∀ e ∈ plan, (dayIds e.2).Nodup := by
  rw [planIds, List.nodup_flatten] at h
  intro e he
  exact h.1 _ (List.mem_map.mpr ⟨e, he, rfl⟩)

theorem take_disjoint_of_nodup {plan : List (String × DayPlanT)}
    (h : (planIds plan).Nodup) :
    ∀ k (hk : k < plan.length), ∀ i ∈ dayIds (plan.get ⟨k, hk⟩).2,
      i ∉ planIds (plan.take k) := by
  intro k hk i hi hmem
  have hsplit : plan = plan.take k ++ plan.drop k := (List.take_append_drop k plan).symm
  rw [hsplit, planIds_append] at h
  have hdisj := List.disjoint_of_nodup_append h
  apply hdisj hmem
  have hdrop : plan.drop k = plan.get ⟨k, hk⟩ :: plan.drop (k + 1) := by
    rw [List.drop_eq_getElem_cons hk, List.get_eq_getElem]
  rw [hdrop, planIds_cons]
  exact List.mem_append.mpr (Or.inl hi)

/-- C1: for every multi-day plan returned by the optimizer path, the
multiset of recipe ids across all days and meals has no duplicates, no
single day contains the same id in two of its meals, and no selected id
was already in the Used-Recipe Set at the start of its day; the
Used-Recipe Set starts empty, only grows — after a successful day it is
exactly the old set plus that day's ids, nothing is ever removed — and
any detected duplicate (inter-day or intra-day) aborts the run with
`none` instead of returning the corrupted plan. -/
theorem C1_plan_uniqueness (dayFn : Nat → List Int → Option DayResult) (n : Nat)
    (plan : List (String × DayPlanT))
    (hrun : runOptimizerLoop dayFn n = some plan) :
    (planIds plan).Nodup ∧
    (∀ e ∈ plan, (dayIds e.2).Nodup) ∧
    (∀ k (hk : k < plan.length), ∀ i ∈ dayIds (plan.get ⟨k, hk⟩).2,
      i ∉ planIds (plan.take k)) ∧
    (∀ (used : List Int) (dp : DayPlanT) (u' : List Int),
      dayStep used dp = some u' → u' = used ++ dayIds dp) ∧
    (∀ (used : List Int) (dp : DayPlanT),
      ((∃ i ∈ dayIds dp, i ∈ used) ∨ ¬ (dayIds dp).Nodup) → dayStep used dp = none) ∧
    runOptimizerLoop dayFn n = runFrom dayFn 1 n [] := by
  have hinv := runFrom_invariant dayFn n 1 [] plan hrun
  refine ⟨hinv.2, nodup_dayIds_of_planIds hinv.2, take_disjoint_of_nodup hinv.2,
    ?_, ?_, rfl⟩
  · intro used dp u' h
    exact (dayStep_some h).1
  · intro used dp hbad
    unfold dayStep
    rcases hbad with hb | hb
    · rw [if_pos hb]
    · by_cases hex : ∃ i ∈ dayIds dp, i ∈ used
      · rw [if_pos hex]
      · rw [if_neg hex, if_pos hb]

def dayRes1 : DayResult := ⟨[rB1, rF1], [rM1, rS1], [rM2, rS2], "Optimal", [], zeroTargets⟩


/-- A two-day oracle with disjoint selections.  (`rB1p` has id 1, which
collides with `rB1`; `dayFn1` therefore serves day 2 from fresh ids.) -/
def dayFn1 : Nat → List Int → Option DayResult :=
  fun day _ => if day = 1 then some dayRes1
    else some ⟨[⟨9, "b2", "Breakfast", 0, 0, 0, 0⟩], [rS3],
      [⟨8, "m3", "Main Course", 0, 0, 0, 0⟩], "Optimal", [], zeroTargets⟩

/-- Witness for C1: a concrete two-day optimizer run has globally
duplicate-free recipe ids. -/
theorem C1_plan_uniqueness_witness :
    (runOptimizerLoop dayFn1 2).map (fun plan => decide (planIds plan).Nodup)
      = some true := by
  have hsome : (runOptimizerLoop dayFn1 2).isSome = true := by decide
  rcases Option.isSome_iff_exists.mp hsome with ⟨plan, hrun⟩
  have h := C1_plan_uniqueness dayFn1 2 plan hrun
  rw [hrun, Option.map_some']
  simp [h.1]

/-- A catalog row: a recipe together with its nutritional cluster
(the Recipe model fields used by the funnel queries). -/
structure CatRecipe where
  recipe : Recipe
  cluster : Int
deriving DecidableEq

def lookupD (l : List (String × Nat)) (k : String) (dflt : Nat) : Nat :=
  match l.lookup k with
  | some v => v
  | none => dflt

/-- `STRATIFIED_LIMITS` with its `.get` default
(`planner_service.py`, lines 116-143). -/
def STRATIFIED_LIMITS (meal_name : String) : List (String × Nat) :=
  if meal_name = "Breakfast" then
    [("Breakfast", 150), ("Fruit", 100), ("Drink", 100)]
  else if meal_name = "Lunch" then
    [("Main Course", 200), ("Side Dish", 200), ("Salad", 100), ("Soup", 100)]
  else if meal_name = "Dinner" then
    [("Main Course", 200), ("Side Dish", 200), ("Salad", 100), ("Soup", 100),
      ("Dessert", 50)]
  else
    [("Main Course", 200), ("Side Dish", 200), ("Salad", 100), ("Soup", 100)]

/-- `MEAL_STRUCTURES` with the `get_meal_structure` default
(`planner_service.py`, lines 23-60). -/
def MEAL_STRUCTURES (meal_name : String) : List (String × Nat) :=
  if meal_name = "Breakfast" then
    [("Breakfast", 1), ("Fruit", 0), ("Drink", 0)]
  else if meal_name = "Lunch" then
    [("Main Course", 1), ("Side Dish", 0), ("Salad", 0), ("Soup", 0)]
  else if meal_name = "Dinner" then
    [("Main Course", 1), ("Side Dish", 0), ("Salad", 0), ("Soup", 0), ("Dessert", 0)]
  else
    [("Main Course", 1), ("Side Dish", 1)]

/-- The in-cluster queryset of one funnel iteration
(`base_queryset.filter(meal_type=...)`): primary cluster, used ids and
the Unknown tag excluded. -/
def eligibleInCluster (catalog : List CatRecipe) (cluster : Int) (used : List Int)
    (mt : String) : List CatRecipe :=
  catalog.filter (fun c => c.cluster == cluster && !(used.contains c.recipe.id) &&
    !(c.recipe.meal_type == "Unknown") && c.recipe.meal_type == mt)

/-- The widened (all-clusters) queryset (`expanded_qs`,
`planner_service.py` lines 179-183). -/
def eligibleAnywhere (catalog : List CatRecipe) (used : List Int)
    (mt : String) : List CatRecipe :=
  catalog.filter (fun c => !(used.contains c.recipe.id) &&
    !(c.recipe.meal_type == "Unknown") && c.recipe.meal_type == mt)

/-- Stage-3 trim of `construct_funnel_pool`
(`planner_service.py`, lines 206-238): keep every required-tag row,
then Dinner desserts, then other optional rows, within the cap. -/
def trimFunnelPool (meal_name : String) (meal_structure : List (String × Nat))
    (max_pool_size : Nat) (pool : List Recipe) : List Recipe :=
  let requiredTypes := (meal_structure.filter (fun p => p.2 > 0)).map Prod.fst
  let required := pool.filter (fun r => requiredTypes.contains r.meal_type)
  let priority := pool.filter (fun r => !(requiredTypes.contains r.meal_type) &&
    meal_name == "Dinner" && r.meal_type == "Dessert")
  let other := pool.filter (fun r => !(requiredTypes.contains r.meal_type) &&
    !(meal_name == "Dinner" && r.meal_type == "Dessert"))
  let remaining := max_pool_size - required.length
  if remaining > 0 then
    let priorityKeep := priority.take (min priority.length remaining)
    let remainingAfter := remaining - priorityKeep.length
    let otherKeep := if remainingAfter > 0 then other.take remainingAfter else []
    required ++ priorityKeep ++ otherKeep
  else required

/-- `construct_funnel_pool` (`planner_service.py`, lines 92-248).
`shuffle` models `order_by('?')`.  Note the `continue` of line 192: a
tag with zero rows even after widening is skipped, it does not fail the
pool. -/
def construct_funnel_pool (catalog : List CatRecipe)
    (shuffle : List CatRecipe → List CatRecipe) (meal_name : String)
    (meal_structure : List (String × Nat)) (primary_cluster : Int)
    (used : List Int) (max_pool_size : Nat) : List Recipe :=
  let meal_limits := STRATIFIED_LIMITS meal_name
  let fetchTypes := (meal_structure.map Prod.fst).filter
    (fun mt => lookupD meal_limits mt 0 > 0)
  let pool := fetchTypes.foldl (fun pool mt =>
    let limit := lookupD meal_limits mt 0
    if limit = 0 then pool
    else
      let inCluster := eligibleInCluster catalog primary_cluster used mt
      let qs := if inCluster.length = 0 then eligibleAnywhere catalog used mt
        else inCluster
      if qs.length = 0 then pool
      else pool ++ ((shuffle qs).take (min limit qs.length)).map
        (fun c => c.recipe)) []
  if pool.length > max_pool_size then
    trimFunnelPool meal_name meal_structure max_pool_size pool
  else pool

def idShuffle : List CatRecipe → List CatRecipe := fun l => l

def catRS1 : CatRecipe := ⟨rS1, 0⟩

/-- C4 counterexample: with a catalog holding a single Side Dish and no
Main Course at all (so the strictly-required Lunch tag is unsatisfiable
in-cluster and catalog-wide), `construct_funnel_pool` for Lunch does
*not* return an empty pool — the unsatisfiable tag is skipped and the
Side Dish row is returned — so the caller's `if not meal_recipe_pool`
fatal check does not fire at the pool-construction stage. -/
theorem C4_counterexample :
    eligibleAnywhere [catRS1] [] "Main Course" = [] ∧
    construct_funnel_pool [catRS1] idShuffle "Lunch" (MEAL_STRUCTURES "Lunch")
      0 [] 500 = [rS1] := by
  constructor
  · decide
  · decide

/-- The per-day body of the Orchestrator loop
(`planner_service.py`, lines 684-721): build the three funnel pools
against the current Used-Recipe Set — an empty pool is fatal for the
day — then run the daily global optimization with the 15 % protein
cap. -/
def dayBody (catalog : List CatRecipe) (shuffle : List CatRecipe → List CatRecipe)
    (cluster : Int) (targets : Targets)
    (sampleFn : List AssignedRecipe → Nat → List AssignedRecipe)
    (solve : Nat → Nat → Option ℚ → SolveOutcome)
    (day : Nat) (used : List Int) : Option DayResult :=
  if construct_funnel_pool catalog shuffle "Breakfast" (MEAL_STRUCTURES "Breakfast")
      cluster used 500 = [] then none
  else if construct_funnel_pool catalog shuffle "Lunch" (MEAL_STRUCTURES "Lunch")
      cluster used 500 = [] then none
  else if construct_funnel_pool catalog shuffle "Dinner" (MEAL_STRUCTURES "Dinner")
      cluster used 500 = [] then none
  else
    create_daily_plan_global
      ⟨construct_funnel_pool catalog shuffle "Breakfast" (MEAL_STRUCTURES "Breakfast")
          cluster used 500,
        construct_funnel_pool catalog shuffle "Lunch" (MEAL_STRUCTURES "Lunch")
          cluster used 500,
        construct_funnel_pool catalog shuffle "Dinner" (MEAL_STRUCTURES "Dinner")
          cluster used 500⟩
      targets used (some 15) sampleFn (solve day)

theorem foldl_nil_invariant {α : Type} {f : List α → String → List α}
    {l : List String} (h : ∀ mt ∈ l, f [] mt = []) : l.foldl f [] = [] := by
  induction l with
  | nil => rfl
  | cons mt rest ih =>
    rw [List.foldl_cons, h mt (List.mem_cons_self _ _)]
    exact ih (fun mt' hm => h mt' (List.mem_cons_of_mem _ hm))

theorem eligibleInCluster_subset {catalog : List CatRecipe} {cluster : Int}
    {used : List Int} {mt : String} {c : CatRecipe}
    (h : c ∈ eligibleInCluster catalog cluster used mt) :
    c ∈ eligibleAnywhere catalog used mt := by
  rcases List.mem_filter.mp h with ⟨hmem, hcond⟩
  simp only [Bool.and_eq_true] at hcond
  apply List.mem_filter.mpr
  refine ⟨hmem, ?_⟩
  simp only [Bool.and_eq_true]
  exact ⟨⟨hcond.1.1.2, hcond.1.2⟩, hcond.2⟩

/-- C4 (amended): `construct_funnel_pool` skips a tag that has zero
eligible recipes in the primary cluster and, after widening, zero in
the full catalog, rather than failing; the pool is empty only when
*every* fetched tag is unsatisfiable catalog-wide, and it is that empty
pool (for any of the three meals) that the per-day Orchestrator body
treats as fatal for the day, returning `none`; a pool that merely
misses a strictly-required tag is non-empty and passes the pool check
(the day then dies later, inside `create_daily_plan_global`, a fact
recorded by the C9 theorem). -/
theorem C4_unsatisfiable_required_tag :
    (∀ (catalog : List CatRecipe) (shuffle : List CatRecipe → List CatRecipe)
      (meal_name : String) (meal_structure : List (String × Nat))
      (primary_cluster : Int) (used : List Int) (max_pool_size : Nat),
      (∀ mt ∈ (meal_structure.map Prod.fst).filter
          (fun mt => lookupD (STRATIFIED_LIMITS meal_name) mt 0 > 0),
        eligibleAnywhere catalog used mt = []) →
      construct_funnel_pool catalog shuffle meal_name meal_structure
        primary_cluster used max_pool_size = []) ∧
    (∀ (catalog : List CatRecipe) (shuffle : List CatRecipe → List CatRecipe)
      (cluster : Int) (targets : Targets)
      (sampleFn : List AssignedRecipe → Nat → List AssignedRecipe)
      (solve : Nat → Nat → Option ℚ → SolveOutcome) (day : Nat) (used : List Int),
      (construct_funnel_pool catalog shuffle "Breakfast" (MEAL_STRUCTURES "Breakfast")
          cluster used 500 = [] ∨
       construct_funnel_pool catalog shuffle "Lunch" (MEAL_STRUCTURES "Lunch")
          cluster used 500 = [] ∨
       construct_funnel_pool catalog shuffle "Dinner" (MEAL_STRUCTURES "Dinner")
          cluster used 500 = []) →
      dayBody catalog shuffle cluster targets sampleFn solve day used = none) := by
  constructor
  · intro catalog shuffle meal_name meal_structure primary_cluster used max_pool_size hall
    unfold construct_funnel_pool
    simp only
    rw [foldl_nil_invariant]
    · rw [if_neg (by simp only [List.length_nil]; omega)]
    · intro mt hm
      have hany := hall mt hm
      split
      · rfl
      · rename_i hlim
        by_cases hic : (eligibleInCluster catalog primary_cluster used mt).length = 0
        · rw [if_pos hic, if_pos (by rw [hany]; rfl)]
        · exfalso
          have hne : eligibleInCluster catalog primary_cluster used mt ≠ [] := by
            intro heq
            rw [heq] at hic
            exact hic rfl
          rcases List.exists_mem_of_ne_nil _ hne with ⟨c, hc⟩
          have := eligibleInCluster_subset hc
          rw [hany] at this
          cases this
  · intro catalog shuffle cluster targets sampleFn solve day used hempty
    unfold dayBody
    rcases hempty with h | h | h
    · rw [if_pos h]
    · split <;> simp_all
    · split <;> simp_all

/-- Witness for C4 (amended): an empty catalog makes every tag
unsatisfiable, the funnel pool comes back empty, and the day body
aborts with `none`. -/
theorem C4_unsatisfiable_required_tag_witness :
    construct_funnel_pool [] idShuffle "Lunch" (MEAL_STRUCTURES "Lunch") 0 [] 500
      = [] ∧
    dayBody [] idShuffle 0 zeroTargets takeSample (fun _ => solveAll) 1 [] = none := by
  constructor
  · exact C4_unsatisfiable_required_tag.1 [] idShuffle "Lunch" (MEAL_STRUCTURES "Lunch")
      0 [] 500 (by decide)
  · exact C4_unsatisfiable_required_tag.2 [] idShuffle 0 zeroTargets takeSample
      (fun _ => solveAll) 1 []
      (Or.inl (C4_unsatisfiable_required_tag.1 [] idShuffle "Breakfast"
        (MEAL_STRUCTURES "Breakfast") 0 [] 500 (by decide)))

/-- Result record of `create_single_meal_resilient`. -/
structure ResilientResult where
  recipes : List Recipe
  relaxation_level : Nat
  message : String
  deviations : List (String × DevEntry)
deriving DecidableEq

/-- The meal structure used at a relaxation level
(`optimization_service.py`, lines 261-271): from level 2 on, the
structure is reduced to the mandatory item (Breakfast keeps an optional
Fruit entry). -/
def levelStructure (meal_structure : List (String × Nat)) (level : Nat) :
    List (String × Nat) :=
  if level ≥ 2 then
    if (meal_structure.lookup "Breakfast").isSome then [("Breakfast", 1), ("Fruit", 0)]
    else [("Main Course", lookupD meal_structure "Main Course" 1)]
  else meal_structure

/-- The protein-cap argument passed to the optimizer at a relaxation
level (`optimization_service.py`, lines 252-286): the initial limit at
level 0, 20 from level 1, 50 from level 3, and `None` at level 4. -/
def levelCap (initial : ℚ) (level : Nat) : Option ℚ :=
  let c := initial
  let c := if level ≥ 1 then (20 : ℚ) else c
  let c := if level ≥ 3 then (50 : ℚ) else c
  if level < 4 then some c else none

/-- `level_messages` (`optimization_service.py`, lines 308-314). -/
def levelMessage (level : Nat) : String :=
  if level = 0 then "Strict constraints satisfied (optimal solution)"
  else if level = 1 then "Relaxed protein constraint (20% tolerance)"
  else if level = 2 then "Relaxed structure requirement (simplified meal)"
  else if level = 3 then "Relaxed nutritional targets (±30% acceptable)"
  else if level = 4 then "Heuristic fallback (best effort without optimization)"
  else "Level " ++ toString level ++ " solution"

/-- `required_types` of the heuristic (`{mt: c for mt, c in
meal_structure.items() if c > 0}`). -/
def requiredTypesOf (ms : List (String × Nat)) : List String :=
  (ms.filter (fun p => p.2 > 0)).map Prod.fst

/-- `sum(required_types.values())`. -/
def totalRequiredOf (ms : List (String × Nat)) : Nat :=
  ((ms.filter (fun p => p.2 > 0)).map Prod.snd).sum

/-- A nutrient value normalized as percent of target, 0 when the target
is not positive (`heuristic_meal_selection`, lines 361-366). -/
def normComponent (v tv : ℚ) : ℚ :=
  if tv > 0 then v / tv * 100 else 0

/-- Squared Euclidean distance to the all-100 % vector.  The source
compares `sqrt` of this; square root is strictly monotone on
non-negatives, so the strict comparisons used for the argmin agree. -/
def normDistSq (r : Recipe) (t : Targets) : ℚ :=
  (normComponent r.avg_calories t.calories - 100) ^ 2 +
  (normComponent r.avg_protein_g t.protein_g - 100) ^ 2 +
  (normComponent r.avg_fat_g t.fat_g - 100) ^ 2 +
  (normComponent r.avg_carbs_g t.carbs_g - 100) ^ 2

/-- The best-candidate scan over the first 100 candidates
(`for recipe in type_recipes[:min(100, len(type_recipes))]`, strict
improvement over an infinite initial distance). -/
def pickBest (cands : List Recipe) (t : Targets) : Option Recipe :=
  (cands.take 100).foldl (fun best r =>
    match best with
    | none => some r
    | some b => if normDistSq r t < normDistSq b t then some r else some b) none

/-- `min(recipe_pool[:100], key=calorie distance)` — Python's `min`
keeps the first minimum. -/
def pickBestCal (cands : List Recipe) (t : Targets) : Option Recipe :=
  (cands.take 100).foldl (fun best r =>
    match best with
    | none => some r
    | some b =>
      if |r.avg_calories - t.calories| < |b.avg_calories - t.calories| then some r
      else some b) none

/-- The per-required-tag selection loop of the heuristic
(`optimization_service.py`, lines 349-378): pick the nearest candidate
of each required type and remove it from the pool; a type without
candidates is skipped. -/
def selLoop (t : Targets) : List String → List Recipe → List Recipe →
    (List Recipe × List Recipe)
  | [], pool, selected => (selected, pool)
  | mt :: rest, pool, selected =>
    match pickBest (pool.filter (fun r => r.meal_type == mt)) t with
    | none => selLoop t rest pool selected
    | some b =>
      selLoop t rest (pool.filter (fun r => !(r.id == b.id))) (selected ++ [b])

/-- The shortfall-filling while-loop (`optimization_service.py`, lines
380-385), with the remaining shortfall as fuel: each iteration appends
exactly one recipe. -/
def fillLoop (t : Targets) : Nat → List Recipe → List Recipe →
    (List Recipe × List Recipe)
  | 0, pool, selected => (selected, pool)
  | n + 1, pool, selected =>
    if pool.isEmpty then (selected, pool)
    else
      match pickBestCal pool t with
      | none => (selected, pool)
      | some b =>
        fillLoop t n (pool.filter (fun r => !(r.id == b.id))) (selected ++ [b])

/-- `heuristic_meal_selection` (`optimization_service.py`, lines
328-415). -/
def heuristic_meal_selection (pool : List Recipe) (t : Targets)
    (ms : List (String × Nat)) : ResilientResult :=
  let step1 := selLoop t (requiredTypesOf ms) pool []
  let step2 := fillLoop t (totalRequiredOf ms - step1.1.length) step1.2 step1.1
  let finalSel := if step2.1.isEmpty then step2.2.take (min 2 step2.2.length)
    else step2.1
  ⟨finalSel, 4, "Heuristic fallback (best effort without optimization)",
    mkDeviations t (actualOf finalSel)⟩

/-- The level loop of `create_single_meal_resilient`
(`optimization_service.py`, lines 250-321): try levels in order, return
the first success.  `cms` abstracts `create_single_meal` (pool,
targets, structure, cap). -/
def tryLevels (cms : List Recipe → Targets → List (String × Nat) → Option ℚ →
      Option (List Recipe)) (pool : List Recipe) (t : Targets)
    (ms : List (String × Nat)) (initial : ℚ) :
    List Nat → Option (Nat × List Recipe)
  | [] => none
  | l :: ls =>
    match cms pool t (levelStructure ms l) (levelCap initial l) with
    | some rs => some (l, rs)
    | none => tryLevels cms pool t ms initial ls

/-- `create_single_meal_resilient` (`optimization_service.py`, lines
222-325): levels 0-4, each invoking the optimizer; only when all five
fail does the solver-free heuristic run. -/
def create_single_meal_resilient (cms : List Recipe → Targets →
      List (String × Nat) → Option ℚ → Option (List Recipe))
    (pool : List Recipe) (t : Targets) (ms : List (String × Nat))
    (initial : ℚ) : ResilientResult :=
  match tryLevels cms pool t ms initial [0, 1, 2, 3, 4] with
  | some (l, rs) => ⟨rs, l, levelMessage l, mkDeviations t (actualOf rs)⟩
  | none => heuristic_meal_selection pool t ms

theorem foldl_best_isSome (t : Targets)
    (f : Option Recipe → Recipe → Option Recipe)
    (hf : ∀ acc r, acc.isSome = true → (f acc r).isSome = true)
    (hn : ∀ r, (f none r).isSome = true) :
    ∀ (l : List Recipe) (acc : Option Recipe), acc.isSome = true →
      (l.foldl f acc).isSome = true := by
  intro l
  induction l with
  | nil => intro acc h; simpa using h
  | cons r rest ih =>
    intro acc h
    rw [List.foldl_cons]
    exact ih _ (hf acc r h)

theorem pickBest_isSome {cands : List Recipe} (t : Targets) (h : cands ≠ []) :
    (pickBest cands t).isSome = true := by
  unfold pickBest
  rcases List.exists_cons_of_ne_nil h with ⟨c, rest, hc⟩
  subst hc
  rw [show (100 : Nat) = 99 + 1 from rfl, List.take_succ_cons, List.foldl_cons]
  apply foldl_best_isSome t
  · intro acc r hacc
    cases acc with
    | none => cases hacc
    | some b =>
      simp only
      split <;> rfl
  · intro r
    rfl
  · rfl

theorem selLoop_length_le (t : Targets) :
    ∀ (rt : List String) (pool sel : List Recipe),
      sel.length ≤ (selLoop t rt pool sel).1.length := by
  intro rt
  induction rt with
  | nil => intro pool sel; simp [selLoop]
  | cons mt rest ih =>
    intro pool sel
    unfold selLoop
    split
    · exact ih pool sel
    · calc sel.length ≤ (sel ++ [_]).length := by simp
        _ ≤ _ := ih _ _

theorem fillLoop_length_le (t : Targets) :
    ∀ (n : Nat) (pool sel : List Recipe),
      sel.length ≤ (fillLoop t n pool sel).1.length := by
  intro n
  induction n with
  | zero => intro pool sel; simp [fillLoop]
  | succ n ih =>
    intro pool sel
    unfold fillLoop
    split
    · simp
    · split
      · simp
      · calc sel.length ≤ (sel ++ [_]).length := by simp
          _ ≤ _ := ih _ _

theorem heuristic_recipes_nonempty (pool : List Recipe) (t : Targets)
    (ms : List (String × Nat))
    (hreq : ∃ p ∈ ms, p.2 > 0)
    (hcand : ∀ p ∈ ms, p.2 > 0 → ∃ r ∈ pool, r.meal_type = p.1) :
    (heuristic_meal_selection pool t ms).recipes ≠ [] := by
  have hrt : requiredTypesOf ms ≠ [] := by
    rcases hreq with ⟨p, hp, hpos⟩
    apply List.ne_nil_of_mem (a := p.1)
    exact List.mem_map.mpr ⟨p, List.mem_filter.mpr ⟨hp, by simpa using hpos⟩, rfl⟩
  have hsel1 : 1 ≤ (selLoop t (requiredTypesOf ms) pool []).1.length := by
    rcases List.exists_cons_of_ne_nil hrt with ⟨mt, rest, hrteq⟩
    have hmt : mt ∈ requiredTypesOf ms := by
      rw [hrteq]
      exact List.mem_cons_self _ _
    rcases List.mem_map.mp hmt with ⟨p, hpmem, hp1⟩
    rcases List.mem_filter.mp hpmem with ⟨hpms, hppos⟩
    rcases hcand p hpms (by simpa using hppos) with ⟨r, hrpool, hrmt⟩
    have hfil : pool.filter (fun r => r.meal_type == mt) ≠ [] := by
      apply List.ne_nil_of_mem (a := r)
      exact List.mem_filter.mpr ⟨hrpool, by simp [hrmt, hp1]⟩
    rw [hrteq]
    unfold selLoop
    cases hpb : pickBest (pool.filter (fun r => r.meal_type == mt)) t with
    | none =>
      have := pickBest_isSome t hfil
      rw [hpb] at this
      cases this
    | some b =>
      calc 1 = ([] ++ [b] : List Recipe).length := by simp
        _ ≤ _ := selLoop_length_le t rest _ _
  have hsel2 : 1 ≤ (fillLoop t
      (totalRequiredOf ms - (selLoop t (requiredTypesOf ms) pool []).1.length)
      (selLoop t (requiredTypesOf ms) pool []).2
      (selLoop t (requiredTypesOf ms) pool []).1).1.length :=
    le_trans hsel1 (fillLoop_length_le t _ _ _)
  show (let step1 := selLoop t (requiredTypesOf ms) pool []
    let step2 := fillLoop t (totalRequiredOf ms - step1.1.length) step1.2 step1.1
    let finalSel := if step2.1.isEmpty then step2.2.take (min 2 step2.2.length)
      else step2.1
    finalSel) ≠ []
  simp only
  rw [if_neg]
  · intro hempty
    rw [hempty] at hsel2
    simp at hsel2
  · intro hempty
    rw [List.isEmpty_iff] at hempty
    rw [hempty] at hsel2
    simp at hsel2

def cms0 : List Recipe → Targets → List (String × Nat) → Option ℚ →
    Option (List Recipe) :=
  fun _ _ _ c => if c = none then some [rS1] else none

/-- C8 counterexample: level 4 is *not* a solver-free heuristic — the
level-4 iteration still calls the optimizer (`create_single_meal`) with
the protein cap disabled, and when that call succeeds its solution is
returned labelled as level 4.  With an optimizer oracle that fails
whenever a cap is set and returns `[rS1]` when the cap is `None`, the
level-4 result is `[rS1]`, which differs from the selection the
solver-free heuristic would make on the same inputs. -/
theorem C8_counterexample :
    (create_single_meal_resilient cms0 [rM1, rS1] zeroTargets
      [("Main Course", 1), ("Side Dish", 1)] 12).relaxation_level = 4 ∧
    (create_single_meal_resilient cms0 [rM1, rS1] zeroTargets
      [("Main Course", 1), ("Side Dish", 1)] 12).recipes
      ≠ (heuristic_meal_selection [rM1, rS1] zeroTargets
        [("Main Course", 1), ("Side Dish", 1)]).recipes := by
  constructor
  · decide
  · decide

/-- C8 (amended): `create_single_meal_resilient` tries relaxation
levels 0 through 4 in ascending order, each an optimizer attempt, and
returns the result of the first level that succeeds: level 0 passes the
initial protein-deviation limit (default 12 %), level 1 loosens it to
20 %, level 2 additionally drops the complementary-dish requirements
keeping only the mandatory item, level 3 loosens the limit to 50 %, and
level 4 re-attempts the optimizer with the cap disabled (`None`); only
when all five optimizer attempts fail does the solver-free heuristic
run, and — given at least one required tag and at least 1 candidate per
required tag in the pool — that heuristic returns a non-empty
selection, picking per required tag the candidate (among the first 100
of that tag) closest in normalized nutrient space to the all-100 %
vector and filling any remaining shortfall by closest absolute calorie
distance. -/
theorem C8_relaxation_ladder :
    (∀ (ms : List (String × Nat)) (initial : ℚ),
      levelCap initial 0 = some initial ∧ levelCap initial 1 = some 20 ∧
      levelCap initial 2 = some 20 ∧ levelCap initial 3 = some 50 ∧
      levelCap initial 4 = none ∧
      levelStructure ms 0 = ms ∧ levelStructure ms 1 = ms) ∧
    (∀ (cms : List Recipe → Targets → List (String × Nat) → Option ℚ →
        Option (List Recipe)) (pool : List Recipe) (t : Targets)
      (ms : List (String × Nat)) (initial : ℚ) (j : Nat) (rs : List Recipe),
      j ≤ 4 →
      (∀ i < j, cms pool t (levelStructure ms i) (levelCap initial i) = none) →
      cms pool t (levelStructure ms j) (levelCap initial j) = some rs →
      create_single_meal_resilient cms pool t ms initial
        = ⟨rs, j, levelMessage j, mkDeviations t (actualOf rs)⟩) ∧
    (∀ (cms : List Recipe → Targets → List (String × Nat) → Option ℚ →
        Option (List Recipe)) (pool : List Recipe) (t : Targets)
      (ms : List (String × Nat)) (initial : ℚ),
      (∀ i ≤ 4, cms pool t (levelStructure ms i) (levelCap initial i) = none) →
      create_single_meal_resilient cms pool t ms initial
        = heuristic_meal_selection pool t ms) ∧
    (∀ (pool : List Recipe) (t : Targets) (ms : List (String × Nat)),
      (∃ p ∈ ms, p.2 > 0) →
      (∀ p ∈ ms, p.2 > 0 → ∃ r ∈ pool, r.meal_type = p.1) →
      (heuristic_meal_selection pool t ms).recipes ≠ []) := by
  refine ⟨?_, ?_, ?_, ?_⟩
  · intro ms initial
    refine ⟨rfl, rfl, rfl, rfl, rfl, rfl, rfl⟩
  · intro cms pool t ms initial j rs hj hnone hsucc
    interval_cases j
    · simp only [create_single_meal_resilient, tryLevels, hsucc]
    · simp only [create_single_meal_resilient, tryLevels, hnone 0 (by omega), hsucc]
    · simp only [create_single_meal_resilient, tryLevels, hnone 0 (by omega),
        hnone 1 (by omega), hsucc]
    · simp only [create_single_meal_resilient, tryLevels, hnone 0 (by omega),
        hnone 1 (by omega), hnone 2 (by omega), hsucc]
    · simp only [create_single_meal_resilient, tryLevels, hnone 0 (by omega),
        hnone 1 (by omega), hnone 2 (by omega), hnone 3 (by omega), hsucc]
  · intro cms pool t ms initial hall
    simp only [create_single_meal_resilient, tryLevels, hall 0 (by omega),
      hall 1 (by omega), hall 2 (by omega), hall 3 (by omega), hall 4 (by omega)]
  · intro pool t ms hreq hcand
    exact heuristic_recipes_nonempty pool t ms hreq hcand

def cmsW : List Recipe → Targets → List (String × Nat) → Option ℚ →
    Option (List Recipe) :=
  fun _ _ s _ => if s = [("Main Course", 1)] then some [rM1] else none

/-- Witness for C8 (amended): with an optimizer succeeding exactly when
the structure has been reduced to the mandatory Main Course (so levels
0 and 1 fail and level 2 succeeds), the resilient wrapper reports level
2; and the heuristic produces a non-empty selection on a pool with one
candidate per required tag. -/
theorem C8_relaxation_ladder_witness :
    (create_single_meal_resilient cmsW [rM1, rS1] zeroTargets
      [("Main Course", 1), ("Side Dish", 1)] 12).relaxation_level = 2 ∧
    (heuristic_meal_selection [rM1, rS1] zeroTargets
      [("Main Course", 1), ("Side Dish", 1)]).recipes ≠ [] := by
  constructor
  · have h := C8_relaxation_ladder.2.1 cmsW [rM1, rS1] zeroTargets
      [("Main Course", 1), ("Side Dish", 1)] 12 2 [rM1] (by omega)
      (by intro i hi; interval_cases i <;> decide) (by decide)
    rw [h]
  · exact C8_relaxation_ladder.2.2.2 [rM1, rS1] zeroTargets
      [("Main Course", 1), ("Side Dish", 1)] (by decide) (by decide)

/-- `_create_default_recipe` (`default_plans.py` lines 103-121): a
pre-defined fallback recipe with a fixed (negative) id and
" (Default)" appended to the name. -/
def create_default_recipe (recipe_id : Int) (name meal_type : String)
    (nutritional_data : Targets) : Recipe :=
  ⟨recipe_id, name ++ " (Default)", meal_type, nutritional_data.calories,
    nutritional_data.protein_g, nutritional_data.fat_g, nutritional_data.carbs_g⟩

/-- `_ensure_unique_recipe_for_day` (`default_plans.py` lines 124-173).
`findAlt` abstracts the DB query for a random not-yet-used,
non-Unknown recipe of the meal type (`None` both when no row matches
and when the query raises). -/
def ensure_unique_recipe_for_day (findAlt : String → List Int → Option Recipe)
    (recipe_template : Recipe) (meal_type : String)
    (used_recipe_ids : List Int) (day_number : Nat) : Recipe :=
  if recipe_template.id ∉ used_recipe_ids then recipe_template
  else
    match findAlt meal_type used_recipe_ids with
    | some alt => alt
    | none =>
      if recipe_template.id < 0 then
        { recipe_template with
            id := recipe_template.id - (day_number : Int) * 1000,
            name := recipe_template.name ++ " (Day " ++ toString day_number ++ ")" }
      else recipe_template

/-- The per-day loop shared by the three default-plan builders
(`default_plans.py` lines 245-265, 337-354, 447-468): each day is built
from the same used-id set (ids of this day's earlier picks are *not*
excluded within the day), keyed `"Day k"`, and only afterwards are the
day's ids added to the set. -/
def buildDays (step : Nat → List Int → DayPlanT) :
    Nat → Nat → List Int → List (String × DayPlanT)
  | _, 0, _ => []
  | day, n + 1, used =>
    ("Day " ++ toString day, step day used)
      :: buildDays step (day + 1) n (used ++ dayIds (step day used))

/-- Template recipes of `_get_balanced_default_plan`
(`default_plans.py` lines 190-240); `findR` abstracts
`_find_real_recipe` (search terms, meal type, nutritional targets with
30 % tolerance). -/
def balanced_breakfast (findR : List String → String → Targets → Option Recipe) :
    Recipe :=
  (findR ["oatmeal", "nuts", "berries"] "Breakfast" ⟨450, 15, 20, 60⟩).getD
    (create_default_recipe (-1) "Oatmeal with Nuts and Berries" "Breakfast"
      ⟨450, 15, 20, 60⟩)

def balanced_lunch (findR : List String → String → Targets → Option Recipe) :
    Recipe :=
  ((findR ["beef", "stir", "fry", "rice"] "Main Course" ⟨650, 40, 25, 70⟩).or
    (findR ["stir", "fry"] "Main Course" ⟨650, 40, 25, 70⟩)).getD
    (create_default_recipe (-2) "Beef Stir-Fry with Brown Rice" "Main Course"
      ⟨650, 40, 25, 70⟩)

def balanced_dinner (findR : List String → String → Targets → Option Recipe) :
    Recipe :=
  ((findR ["pasta", "marinara", "turkey", "meatball"] "Main Course"
      ⟨700, 45, 28, 75⟩).or
    (findR ["pasta", "meatball"] "Main Course" ⟨700, 45, 28, 75⟩)).getD
    (create_default_recipe (-3) "Pasta with Marinara Sauce and Turkey Meatballs"
      "Main Course" ⟨700, 45, 28, 75⟩)

def balanced_side (findR : List String → String → Targets → Option Recipe) :
    Recipe :=
  ((findR ["green", "salad", "vinaigrette"] "Salad" ⟨150, 3, 12, 8⟩).or
    (findR ["salad"] "Salad" ⟨150, 3, 12, 8⟩)).getD
    (create_default_recipe (-4) "Side Green Salad with Vinaigrette" "Salad"
      ⟨150, 3, 12, 8⟩)

/-- One day of the balanced (maintenance) default plan
(`default_plans.py` lines 245-264): Breakfast holds a single Breakfast
item, Lunch a single Main Course, Dinner a Main Course plus a Salad. -/
def balancedStep (findR : List String → String → Targets → Option Recipe)
    (findAlt : String → List Int → Option Recipe)
    (day : Nat) (used : List Int) : DayPlanT :=
  ⟨[ensure_unique_recipe_for_day findAlt (balanced_breakfast findR) "Breakfast" used day],
   [ensure_unique_recipe_for_day findAlt (balanced_lunch findR) "Main Course" used day],
   [ensure_unique_recipe_for_day findAlt (balanced_dinner findR) "Main Course" used day,
    ensure_unique_recipe_for_day findAlt (balanced_side findR) "Salad" used day]⟩

/-- Template recipes of `_get_high_protein_default_plan`
(`default_plans.py` lines 282-332). -/
def hp_breakfast (findR : List String → String → Targets → Option Recipe) :
    Recipe :=
  ((findR ["greek", "yogurt", "granola", "protein"] "Breakfast"
      ⟨600, 50, 15, 65⟩).or
    (findR ["yogurt", "granola"] "Breakfast" ⟨600, 50, 15, 65⟩)).getD
    (create_default_recipe (-10) "Greek Yogurt with Granola and Protein Powder"
      "Breakfast" ⟨600, 50, 15, 65⟩)

def hp_fruit (findR : List String → String → Targets → Option Recipe) :
    Recipe :=
  (findR ["banana"] "Fruit" ⟨100, 1, 3/10, 27⟩).getD
    (create_default_recipe (-11) "Banana" "Fruit" ⟨100, 1, 3/10, 27⟩)

def hp_lunch (findR : List String → String → Targets → Option Recipe) :
    Recipe :=
  ((findR ["burrito", "bowl", "chicken"] "Main Course" ⟨900, 65, 30, 90⟩).or
    (findR ["burrito", "chicken"] "Main Course" ⟨900, 65, 30, 90⟩)).getD
    (create_default_recipe (-12) "Large Burrito Bowl with Double Chicken"
      "Main Course" ⟨900, 65, 30, 90⟩)

def hp_dinner (findR : List String → String → Targets → Option Recipe) :
    Recipe :=
  ((findR ["steak", "roasted", "potato", "broccoli"] "Main Course"
      ⟨850, 60, 40, 65⟩).or
    (findR ["steak", "potato"] "Main Course" ⟨850, 60, 40, 65⟩)).getD
    (create_default_recipe (-13) "Steak with Roasted Potatoes and Broccoli"
      "Main Course" ⟨850, 60, 40, 65⟩)

/-- One day of the high-protein default plan (`default_plans.py` lines
337-354): Breakfast holds the main item plus a Fruit, Lunch and Dinner
one Main Course each. -/
def highProteinStep (findR : List String → String → Targets → Option Recipe)
    (findAlt : String → List Int → Option Recipe)
    (day : Nat) (used : List Int) : DayPlanT :=
  ⟨[ensure_unique_recipe_for_day findAlt (hp_breakfast findR) "Breakfast" used day,
    ensure_unique_recipe_for_day findAlt (hp_fruit findR) "Fruit" used day],
   [ensure_unique_recipe_for_day findAlt (hp_lunch findR) "Main Course" used day],
   [ensure_unique_recipe_for_day findAlt (hp_dinner findR) "Main Course" used day]⟩

/-- Template recipes of `_get_weight_loss_default_plan`
(`default_plans.py` lines 372-442). -/
def wl_breakfast (findR : List String → String → Targets → Option Recipe) :
    Recipe :=
  ((findR ["scrambled", "egg", "spinach"] "Breakfast" ⟨300, 25, 20, 5⟩).or
    (findR ["scrambled", "egg"] "Breakfast" ⟨300, 25, 20, 5⟩)).getD
    (create_default_recipe (-20) "Scrambled Eggs with Spinach" "Breakfast"
      ⟨300, 25, 20, 5⟩)

def wl_fruit (findR : List String → String → Targets → Option Recipe) :
    Recipe :=
  (findR ["apple"] "Fruit" ⟨80, 1/2, 3/10, 22⟩).getD
    (create_default_recipe (-21) "Apple Slices" "Fruit" ⟨80, 1/2, 3/10, 22⟩)

def wl_lunch (findR : List String → String → Targets → Option Recipe) :
    Recipe :=
  ((findR ["grilled", "chicken", "salad"] "Salad" ⟨450, 40, 25, 15⟩).or
    (findR ["chicken", "salad"] "Salad" ⟨450, 40, 25, 15⟩)).getD
    (create_default_recipe (-22) "Grilled Chicken Salad" "Salad"
      ⟨450, 40, 25, 15⟩)

def wl_lunch_side (findR : List String → String → Targets → Option Recipe) :
    Recipe :=
  (findR ["quinoa"] "Side Dish" ⟨150, 6, 5/2, 28⟩).getD
    (create_default_recipe (-23) "Quinoa" "Side Dish" ⟨150, 6, 5/2, 28⟩)

def wl_dinner (findR : List String → String → Targets → Option Recipe) :
    Recipe :=
  ((findR ["baked", "salmon", "asparagus"] "Main Course" ⟨400, 35, 28, 10⟩).or
    (findR ["salmon", "asparagus"] "Main Course" ⟨400, 35, 28, 10⟩)).getD
    (create_default_recipe (-24) "Baked Salmon with Asparagus" "Main Course"
      ⟨400, 35, 28, 10⟩)

def wl_dinner_side (findR : List String → String → Targets → Option Recipe) :
    Recipe :=
  (findR ["sweet", "potato"] "Side Dish" ⟨120, 2, 1/5, 28⟩).getD
    (create_default_recipe (-25) "Small Sweet Potato" "Side Dish"
      ⟨120, 2, 1/5, 28⟩)

/-- One day of the weight-loss default plan (`default_plans.py` lines
447-468): two items per meal. -/
def weightLossStep (findR : List String → String → Targets → Option Recipe)
    (findAlt : String → List Int → Option Recipe)
    (day : Nat) (used : List Int) : DayPlanT :=
  ⟨[ensure_unique_recipe_for_day findAlt (wl_breakfast findR) "Breakfast" used day,
    ensure_unique_recipe_for_day findAlt (wl_fruit findR) "Fruit" used day],
   [ensure_unique_recipe_for_day findAlt (wl_lunch findR) "Salad" used day,
    ensure_unique_recipe_for_day findAlt (wl_lunch_side findR) "Side Dish" used day],
   [ensure_unique_recipe_for_day findAlt (wl_dinner findR) "Main Course" used day,
    ensure_unique_recipe_for_day findAlt (wl_dinner_side findR) "Side Dish" used day]⟩

/-- `get_default_plan` (`default_plans.py` lines 18-36): dispatch on
the primary goal, `'maintain'` and every other goal giving the
balanced plan. -/
def get_default_plan (findR : List String → String → Targets → Option Recipe)
    (findAlt : String → List Int → Option Recipe)
    (primary_goal : String) (number_of_days : Nat) : List (String × DayPlanT) :=
  if primary_goal = "gain_muscle" then
    buildDays (highProteinStep findR findAlt) 1 number_of_days []
  else if primary_goal = "lose_weight" then
    buildDays (weightLossStep findR findAlt) 1 number_of_days []
  else
    buildDays (balancedStep findR findAlt) 1 number_of_days []

/-- The resiliency wrapper of `generate_full_meal_plan`
(`planner_service.py` lines 670-846): the optimizer path (day loop
abstracted as in `runOptimizerLoop`, `none` = any raised exception),
the completeness guard of lines 815-817, and on any failure the
fallback `_handle_fallback` → `get_default_plan`. -/
def generate_full_meal_plan (dayFn : Nat → List Int → Option DayResult)
    (findR : List String → String → Targets → Option Recipe)
    (findAlt : String → List Int → Option Recipe)
    (primary_goal : String) (number_of_days : Nat) : List (String × DayPlanT) :=
  match runOptimizerLoop dayFn number_of_days with
  | some weekly_plan =>
    if weekly_plan.length = 0 ∨ weekly_plan.length < number_of_days then
      get_default_plan findR findAlt primary_goal number_of_days
    else weekly_plan
  | none => get_default_plan findR findAlt primary_goal number_of_days

theorem buildDays_keys (step : Nat → List Int → DayPlanT) :
    ∀ (n day : Nat) (used : List Int),
      (buildDays step day n used).map Prod.fst
        = (List.range n).map (fun k => "Day " ++ toString (day + k)) := by
  intro n
  induction n with
  | zero =>
    intro day used
    simp [buildDays]
  | succ m ih =>
    intro day used
    simp only [buildDays, List.map_cons]
    rw [List.range_succ_eq_map, List.map_cons, List.map_map,
      ih (day + 1) (used ++ dayIds (step day used))]
    congr 1
    apply List.map_congr_left
    intro k hk
    have h : day + 1 + k = day + (k + 1) := by omega
    simp [h]

theorem buildDays_keys_one (step : Nat → List Int → DayPlanT) (n : Nat) :
    (buildDays step 1 n []).map Prod.fst
      = (List.range n).map (fun k => "Day " ++ toString (k + 1)) := by
  rw [buildDays_keys]
  apply List.map_congr_left
  intro k hk
  have h : 1 + k = k + 1 := by omega
  rw [h]

theorem buildDays_length (step : Nat → List Int → DayPlanT) :
    ∀ (n day : Nat) (used : List Int), (buildDays step day n used).length = n := by
  intro n
  induction n with
  | zero =>
    intro day used
    simp [buildDays]
  | succ m ih =>
    intro day used
    simp [buildDays, ih]

theorem buildDays_mem (step : Nat → List Int → DayPlanT) (P : DayPlanT → Prop)
    (hstep : ∀ day used, P (step day used)) :
    ∀ (n day : Nat) (used : List Int), ∀ e ∈ buildDays step day n used, P e.2 := by
  intro n
  induction n with
  | zero =>
    intro day used e he
    simp [buildDays] at he
  | succ m ih =>
    intro day used e he
    simp only [buildDays, List.mem_cons] at he
    rcases he with h | h
    · subst h
      exact hstep day used
    · exact ih (day + 1) (used ++ dayIds (step day used)) e h

def nonemptyMeals (dp : DayPlanT) : Prop :=
  dp.breakfast ≠ [] ∧ dp.lunch ≠ [] ∧ dp.dinner ≠ []

def failDayFn : Nat → List Int → Option DayResult := fun _ _ => none

def noneFindR : List String → String → Targets → Option Recipe := fun _ _ _ => none

def noneFindAlt : String → List Int → Option Recipe := fun _ _ => none

/-- C2 counterexample: the fallback days are *not* all structurally
valid in the optimizer's sense.  When the pipeline fails for a
`'maintain'` user, the balanced default plan is returned, and its
Breakfast slot holds a single Breakfast item with no Fruit/Drink (and
its Lunch a single Main Course with no complementary dish) — violating
the claimed "Breakfast with 1 Breakfast-tag item plus 1 Fruit/Drink"
shape. -/
theorem C2_counterexample :
    (generate_full_meal_plan failDayFn noneFindR noneFindAlt "maintain" 1).map
        (fun e => (e.1, e.2.breakfast.map Recipe.meal_type,
          e.2.lunch.map Recipe.meal_type, e.2.dinner.map Recipe.meal_type))
      = [("Day 1", ["Breakfast"], ["Main Course"], ["Main Course", "Salad"])] ∧
    ∀ e ∈ generate_full_meal_plan failDayFn noneFindR noneFindAlt "maintain" 1,
      ¬ ∃ r ∈ e.2.breakfast, r.meal_type = "Fruit" ∨ r.meal_type = "Drink" := by
  constructor
  · decide
  · decide

/-- C2 (amended): whenever the optimizer pipeline fails (day-loop
exception or incomplete plan), `generate_full_meal_plan` discards all
partial progress and returns the static default plan for the user's
goal; that default plan has exactly N days keyed "Day 1" .. "Day N",
and every day has non-empty Breakfast, Lunch and Dinner slots (the
exact shape depends on the goal template: the balanced plan's
Breakfast has one item and its Lunch has no complementary dish). -/
theorem C2_fallback_default_plan :
    (∀ (dayFn : Nat → List Int → Option DayResult)
      (findR : List String → String → Targets → Option Recipe)
      (findAlt : String → List Int → Option Recipe)
      (primary_goal : String) (n : Nat),
      runOptimizerLoop dayFn n = none →
      generate_full_meal_plan dayFn findR findAlt primary_goal n
        = get_default_plan findR findAlt primary_goal n) ∧
    (∀ (findR : List String → String → Targets → Option Recipe)
      (findAlt : String → List Int → Option Recipe)
      (primary_goal : String) (n : Nat),
      (get_default_plan findR findAlt primary_goal n).map Prod.fst
        = (List.range n).map (fun k => "Day " ++ toString (k + 1))) ∧
    (∀ (findR : List String → String → Targets → Option Recipe)
      (findAlt : String → List Int → Option Recipe)
      (primary_goal : String) (n : Nat),
      (get_default_plan findR findAlt primary_goal n).length = n) ∧
    (∀ (findR : List String → String → Targets → Option Recipe)
      (findAlt : String → List Int → Option Recipe)
      (primary_goal : String) (n : Nat),
      ∀ e ∈ get_default_plan findR findAlt primary_goal n, nonemptyMeals e.2) := by
  refine ⟨?_, ?_, ?_, ?_⟩
  · intro dayFn findR findAlt primary_goal n h
    simp only [generate_full_meal_plan, h]
  · intro findR findAlt primary_goal n
    unfold get_default_plan
    split
    · exact buildDays_keys_one _ n
    · split
      · exact buildDays_keys_one _ n
      · exact buildDays_keys_one _ n
  · intro findR findAlt primary_goal n
    unfold get_default_plan
    split
    · exact buildDays_length _ n 1 []
    · split
      · exact buildDays_length _ n 1 []
      · exact buildDays_length _ n 1 []
  · intro findR findAlt primary_goal n e he
    unfold get_default_plan at he
    split at he
    · refine buildDays_mem _ nonemptyMeals ?_ n 1 [] e he
      intro day used
      refine ⟨?_, ?_, ?_⟩ <;> simp [highProteinStep, nonemptyMeals]
    · split at he
      · refine buildDays_mem _ nonemptyMeals ?_ n 1 [] e he
        intro day used
        refine ⟨?_, ?_, ?_⟩ <;> simp [weightLossStep, nonemptyMeals]
      · refine buildDays_mem _ nonemptyMeals ?_ n 1 [] e he
        intro day used
        refine ⟨?_, ?_, ?_⟩ <;> simp [balancedStep, nonemptyMeals]

/-- Witness for C2 (amended): a failing day loop for a `'maintain'`
user on a 1-day request yields exactly the balanced default plan, with
key "Day 1", length 1 and a non-empty Breakfast. -/
theorem C2_fallback_default_plan_witness :
    runOptimizerLoop failDayFn 1 = none ∧
    generate_full_meal_plan failDayFn noneFindR noneFindAlt "maintain" 1
      = get_default_plan noneFindR noneFindAlt "maintain" 1 ∧
    (get_default_plan noneFindR noneFindAlt "maintain" 1).map Prod.fst = ["Day 1"] ∧
    (get_default_plan noneFindR noneFindAlt "maintain" 1).length = 1 ∧
    (balancedStep noneFindR noneFindAlt 1 []).breakfast ≠ [] := by
  refine ⟨rfl,
    C2_fallback_default_plan.1 failDayFn noneFindR noneFindAlt "maintain" 1 rfl,
    ?_, ?_, ?_⟩
  · rw [C2_fallback_default_plan.2.1 noneFindR noneFindAlt "maintain" 1]
    rfl
  · exact C2_fallback_default_plan.2.2.1 noneFindR noneFindAlt "maintain" 1
  · exact (C2_fallback_default_plan.2.2.2 noneFindR noneFindAlt "maintain" 1
      ("Day 1", balancedStep noneFindR noneFindAlt 1 [])
      (List.Mem.head _)).1
